import Mathlib

/-!
Shallow embedding of the conversational-agent backend (Python sources under
`app/`) used to settle the specification claims.  Time is modelled in seconds
(`Int`): a `datetime` value is its POSIX timestamp, `timedelta(days = d)` is
`d * 86400` seconds, and the `isoformat`/`fromisoformat` round trip performed
by the auth store is the identity on this representation.  Cryptographic and
environmental primitives that the code calls but whose internals are irrelevant
to the claims (SHA-256, MD5, UUID generation, `mimetypes.guess_extension`,
`strftime`, the network, the file system's failure behaviour) are passed in as
explicit parameters.
-/

/-- Substring test, Python's `needle in haystack` on `str`. -/
def strContains (s pat : String) : Bool :=
  s.data.tails.any (fun t => pat.data.isPrefixOf t)

/-- Python's `str.lower()` (ASCII case folding). -/
def lowerStr (s : String) : String := String.mk (s.data.map Char.toLower)

/-- Python's `str.startswith(pre)`. -/
def pyStartsWith (s pre : String) : Bool := pre.data.isPrefixOf s.data

/-- Python's `str.endswith(post)`. -/
def pyEndsWith (s post : String) : Bool := post.data.isSuffixOf s.data

/-- Python's `str.strip()` (whitespace on both ends). -/
def pyStrip (s : String) : String :=
  String.mk (((s.data.dropWhile Char.isWhitespace).reverse.dropWhile Char.isWhitespace).reverse)

/-- Python's `str.lstrip()`. -/
def pyLstrip (s : String) : String := String.mk (s.data.dropWhile Char.isWhitespace)

/-- Python's `str.rstrip()`. -/
def pyRstrip (s : String) : String :=
  String.mk ((s.data.reverse.dropWhile Char.isWhitespace).reverse)

/- ===================== Auth subsystem (app/utils/auth.py) ===================== -/

/-- The subset of `Settings` read by `APIKeyManager.validate_key`
(`settings.environment`, `settings.admin_api_key`). -/
structure AuthSettings where
  environment : String
  admin_api_key : String
  deriving DecidableEq, Repr

/-- One record of the in-memory `API_KEYS` store.  `created_at`/`expires_at`
are POSIX seconds (`datetime.utcnow()` values; the store keeps them as
isoformat strings, and `fromisoformat` recovers the same instant).
`last_reset` is `int(time.time())`. -/
structure KeyData where
  key_id : String
  scopes : List String
  created_at : Int
  expires_at : Int
  rate_limit : Nat
  request_count : Nat
  last_reset : Int
  deriving DecidableEq, Repr

/-- `API_KEYS`: a dict keyed by the SHA-256 hex digest of the full key,
in insertion order. -/
abbrev KeyStore := List (String × KeyData)

/-- Dict assignment `API_KEYS[key_hash] = key_data`: replace in place if the
key is present, else append. -/
def storeSet (k : String) (v : KeyData) (store : KeyStore) : KeyStore :=
  if (store.lookup k).isSome then
    store.map (fun p => if p.1 = k then (k, v) else p)
  else store ++ [(k, v)]

/-- `APIKeyManager.register_key`.  `hashFn` stands for
`hashlib.sha256(...).hexdigest()`; `now` is `datetime.utcnow()` in POSIX
seconds (the code also calls `int(time.time())` for `last_reset`, the same
instant).  Returns the stored record and the updated store. -/
def register_key (hashFn : String → String) (now : Int) (api_key : String)
    (scopes : List String) (expires_in_days : Int) (rate_limit : Nat)
    (store : KeyStore) : KeyData × KeyStore :=
  let key_hash := hashFn api_key
  let key_id := String.mk (api_key.data.takeWhile (fun c => c ≠ '.'))
  let key_data : KeyData :=
    { key_id := key_id
      scopes := scopes
      created_at := now
      expires_at := now + expires_in_days * 86400
      rate_limit := rate_limit
      request_count := 0
      last_reset := now }
  (key_data, storeSet key_hash key_data store)

/-- The synthetic admin record built by the development bypass inside
`validate_key`. -/
def adminKeyData (now : Int) : KeyData :=
  { key_id := "admin"
    scopes := ["chat", "sessions", "admin"]
    created_at := now
    expires_at := now + 365 * 86400
    rate_limit := 1000
    request_count := 0
    last_reset := now }

/-- `APIKeyManager.validate_key`.  Returns the `(is_valid, error_message,
key_data)` triple (with `key_data = none` standing for the empty dict `{}` of
the source) together with the store after the in-place mutations of the looked
up record (daily reset, request-count increment). -/
def validate_key (cfg : AuthSettings) (hashFn : String → String) (now : Int)
    (api_key : String) (scope : String) (store : KeyStore) :
    (Bool × Option String × Option KeyData) × KeyStore :=
  if api_key = "" then ((false, some "No API key provided", none), store)
  else if lowerStr cfg.environment = "development" ∧ api_key = cfg.admin_api_key then
    ((true, none, some (adminKeyData now)), store)
  else
    let key_hash := hashFn api_key
    match store.lookup key_hash with
    | none => ((false, some "Invalid API key", none), store)
    | some key_data =>
      if key_data.expires_at < now then
        ((false, some "API key expired", some key_data), store)
      else if ¬ key_data.scopes.contains scope then
        ((false, some ("API key does not have " ++ scope ++ " permission"), some key_data), store)
      else
        let kd1 :=
          if now - key_data.last_reset > 86400 then
            { key_data with request_count := 0, last_reset := now }
          else key_data
        if kd1.rate_limit ≤ kd1.request_count then
          ((false, some "Rate limit exceeded", some kd1), storeSet key_hash kd1 store)
        else
          let kd2 := { kd1 with request_count := kd1.request_count + 1 }
          ((true, none, some kd2), storeSet key_hash kd2 store)

/- ===================== HTTP auth gates (app/api/auth.py, app/api/server.py) ===================== -/

/-- The subset of `Settings` read by the `get_api_key` dependency. -/
structure GateSettings where
  environment : String
  debug_mode : Bool
  api_key_pfx : String
  admin_api_key : String
  deriving DecidableEq, Repr

/-- Outcome of the `get_api_key` FastAPI dependency.  `valueError` is a raised
`ValueError` (not an `HTTPException`), which the framework surfaces as a 500
response. -/
inductive GateOutcome where
  | devBypass (key_id : String) (scopes : List String)
  | unauthorized (detail : String)
  | valueError (detail : String)
  | ok (key_id : String) (data : KeyData)
  deriving DecidableEq, Repr

/-- `get_api_key` (app/api/auth.py).  After the prefix check the source runs
`key_id, key_data = APIKeyManager.validate_key(api_key)`: the right-hand side
is the 3-tuple `(is_valid, error_message, key_data)`, and unpacking it into two
names raises `ValueError` — after the call's store mutations have happened. -/
def get_api_key (cfg : GateSettings) (hashFn : String → String) (now : Int)
    (credentials : Option String) (store : KeyStore) : GateOutcome × KeyStore :=
  if cfg.environment = "development" ∧ cfg.debug_mode then
    (GateOutcome.devBypass "dev-key" ["chat", "sessions"], store)
  else
    match credentials with
    | none => (GateOutcome.unauthorized "Invalid API key", store)
    | some api_key =>
      if ¬ pyStartsWith api_key cfg.api_key_pfx then
        (GateOutcome.unauthorized "Invalid API key format", store)
      else
        let r := validate_key ⟨cfg.environment, cfg.admin_api_key⟩ hashFn now api_key "chat" store
        (GateOutcome.valueError "too many values to unpack (expected 2)", r.2)

/-- The method names defined on the `APIKeyManager` class
(app/utils/auth.py): attribute lookup on any other name raises
`AttributeError`. -/
def aPIKeyManagerMethods : List String :=
  ["generate_key", "hash_key", "register_key", "validate_key", "revoke_key"]

/-- Outcome of the `POST /auth/keys` handler. -/
inductive KeyRouteOutcome where
  | ok200 (key_id api_key : String) (scopes : List String) (expires_at : Int) (rate_limit : Nat)
  | http500 (detail : String)
  deriving DecidableEq, Repr

/-- Attribute lookup `key_manager.create_key` modelled as an `Except`:
`AttributeError` when the name is not among the class's methods. -/
def aPIKeyManagerGetAttr (name : String) : Except String Unit :=
  if aPIKeyManagerMethods.contains name then Except.ok ()
  else Except.error ("\x27APIKeyManager\x27 object has no attribute \x27" ++ name ++ "\x27")

/-- The `create_api_key` handler body (app/api/server.py, `POST /auth/keys`),
after the admin gate.  It calls `key_manager.create_key(...)`; the attribute
lookup raises `AttributeError`, which the handler's `except Exception` turns
into an HTTP 500.  The `Except.ok` branch is dead code: `APIKeyManager`
defines no `create_key`, so no key is ever minted and no 200 response is ever
built on this path. -/
def create_api_key (scopes : List String) (expires_in_days : Int)
    (rate_limit : Nat) : KeyRouteOutcome :=
  match aPIKeyManagerGetAttr "create_key" with
  | Except.ok _ =>
      KeyRouteOutcome.http500 "unreachable: create_key is not defined on APIKeyManager"
  | Except.error msg => KeyRouteOutcome.http500 ("Internal server error: " ++ msg)

/- ===================== Date tool (app/tools/date/core.py, tool.py) ===================== -/

/-- Days are proleptic-Gregorian ordinals as in Python's
`date.toordinal()` (day 1 = 0001-01-01); `date.weekday()` (Monday = 0) of
ordinal `d` is `(d - 1) mod 7`. -/
def dateWeekday (d : Int) : Int := (d - 1) % 7

/-- The weekday-name table `jour_semaine` of `calculate_date_core`. -/
def jourSemaine (w : Int) : String :=
  if w = 0 then "lundi" else if w = 1 then "mardi" else if w = 2 then "mercredi"
  else if w = 3 then "jeudi" else if w = 4 then "vendredi" else if w = 5 then "samedi"
  else if w = 6 then "dimanche" else ""

/-- `calculate_date_core` (app/tools/date/core.py).  `strftime fmt d`
stands for `date.fromordinal(d).strftime(fmt)`; `today` is
`datetime.datetime.now()`'s ordinal.  The French `description` strings the
source computes are dead for the return value (only the formatted date is
returned), so they are not reproduced here. -/
def calculate_date_core (strftime : String → Int → String) (today : Int)
    (days weeks : Int) (weekday : Option Int) (format_str : String) : String :=
  if days ≠ 0 ∨ weeks ≠ 0 then
    strftime format_str (today + days + weeks * 7)
  else
    match weekday with
    | some w =>
      if ¬ (0 ≤ w ∧ w ≤ 6) then
        "Erreur: weekday (" ++ toString w ++ ") doit être entre 0 (lundi) et 6 (dimanche)."
      else
        let current_weekday := dateWeekday today
        let days_ahead := w - current_weekday
        let days_ahead := if days_ahead ≤ 0 then days_ahead + 7 else days_ahead
        strftime format_str (today + days_ahead)
    | none => strftime format_str today

/-- The registered tool `calculer_date` (app/tools/date/tool.py): a direct
delegation to `calculate_date_core`. -/
def calculer_date (strftime : String → Int → String) (today : Int)
    (days weeks : Int) (weekday : Option Int) (format : String) : String :=
  calculate_date_core strftime today days weeks weekday format

/- ===================== URL parsing (urllib.parse / os.path helpers) ===================== -/

/-- The result of `urllib.parse.urlparse` restricted to the fields the media
code reads. -/
structure ParsedUrl where
  scheme : String
  netloc : String
  path : String
  deriving DecidableEq, Repr

/-- Characters allowed in a URL scheme after the initial letter. -/
def isSchemeChar (c : Char) : Bool :=
  c.isAlphanum || c = '+' || c = '-' || c = '.'

/-- Split a character list at the first occurrence of `c`
(`none` when absent). -/
def splitAtChar (c : Char) : List Char → Option (List Char × List Char)
  | [] => none
  | x :: rest =>
    if x = c then some ([], rest)
    else (splitAtChar c rest).map (fun p => (x :: p.1, p.2))

/-- `urllib.parse.urlparse`: a scheme is recognised before the first `:` when
it is nonempty, starts with a letter and uses only scheme characters; a
netloc follows a literal `//` and runs to the next `/`, `?` or `#`; the path
is the remainder up to the query/fragment. -/
def urlparse (url : String) : ParsedUrl :=
  let cs := url.data
  let schemeRest : String × List Char :=
    match splitAtChar ':' cs with
    | some p =>
      (match p.1 with
       | [] => ("", cs)
       | c0 :: _ =>
         if c0.isAlpha ∧ p.1.all isSchemeChar then (String.mk (p.1.map Char.toLower), p.2)
         else ("", cs))
    | none => ("", cs)
  let netlocRest : String × List Char :=
    match schemeRest.2 with
    | '/' :: '/' :: tail =>
      let netl := tail.takeWhile (fun c => c ≠ '/' ∧ c ≠ '?' ∧ c ≠ '#')
      (String.mk netl, tail.drop netl.length)
    | rest => ("", rest)
  { scheme := schemeRest.1
    netloc := netlocRest.1
    path := String.mk (netlocRest.2.takeWhile (fun c => c ≠ '?' ∧ c ≠ '#')) }

/-- The suffix starting at the last `.` of a character list (empty when no
dot is present). -/
def lastDotSuffix : List Char → List Char
  | [] => []
  | c :: rest =>
    if c = '.' ∧ ¬ rest.any (fun d => d = '.') then c :: rest
    else lastDotSuffix rest

/-- The extension component of `os.path.splitext`: the suffix from the last
dot of the basename, except that leading dots never start an extension. -/
def splitextExt (path : String) : String :=
  let base := String.mk ((path.data.reverse.takeWhile (fun c => c ≠ '/')).reverse)
  let stripped := base.data.dropWhile (fun c => c = '.')
  if stripped.any (fun c => c = '.') then String.mk (lastDotSuffix stripped) else ""

/- ===================== Media subsystem (app/tools/media/core.py, tool.py) ===================== -/

/-- `SUPPORTED_MIME_TYPES` of app/tools/media/core.py, in source order. -/
def sUPPORTED_MIME_TYPES : List (String × List String) :=
  [("image", ["image/jpeg", "image/png", "image/gif", "image/webp"]),
   ("document", ["application/pdf", "text/plain", "text/csv",
                 "application/vnd.openxmlformats-officedocument.wordprocessingml.document"]),
   ("audio", ["audio/mpeg", "audio/wav", "audio/ogg"]),
   ("video", ["video/mp4", "video/mpeg", "video/webm"])]

/-- `url_to_media_type`: match the content type's prefix against the MIME
table first, then sniff the URL path's extension, defaulting to
"document". -/
def url_to_media_type (url : String) (content_type : Option String) : String :=
  let fromCt : Option String :=
    match content_type with
    | some ct =>
      if ct ≠ "" then
        (sUPPORTED_MIME_TYPES.find? (fun g => g.2.any (fun m => pyStartsWith ct m))).map (fun g => g.1)
      else none
    | none => none
  match fromCt with
  | some t => t
  | none =>
    let ext := lowerStr (splitextExt (urlparse url).path)
    if ext ∈ [".jpg", ".jpeg", ".png", ".gif", ".webp"] then "image"
    else if ext ∈ [".pdf", ".txt", ".doc", ".docx"] then "document"
    else if ext ∈ [".mp3", ".wav", ".ogg"] then "audio"
    else if ext ∈ [".mp4", ".mpeg", ".webm"] then "video"
    else "document"

/-- The cache directory constant (`MEDIA_CACHE_DIR` is the absolute
`media_cache` directory under the application root; the model keeps the
relative name). -/
def mEDIA_CACHE_DIR : String := "media_cache"

/-- The `MediaMetadata` record (app/tools/media/schema.py); `download_date`
defaults to `datetime.now()` at construction and is modelled in POSIX
seconds. -/
structure MediaMetadata where
  media_id : String
  original_url : String
  local_path : String
  media_type : String
  content_type : String
  size : Nat
  session_id : Option String
  processed : Bool := false
  processed_content : Option String := none
  download_date : Int
  deriving DecidableEq, Repr

/-- An HTTP response as the media fetcher consumes it: `ok` is whether
`raise_for_status()` passes, `contentTypeHeader` is
`headers.get('Content-Type', '')`, `body` is `response.content`. -/
structure HttpResponse where
  ok : Bool
  contentTypeHeader : String
  body : String
  deriving DecidableEq, Repr

/-- The process-wide media state: `media_registry` (a dict in insertion
order), the cache-directory contents (path to content, unique paths), and the
number of UUIDs drawn so far. -/
structure MediaState where
  registry : List (String × MediaMetadata)
  files : List (String × String)
  uuidCounter : Nat
  deriving DecidableEq, Repr

/-- Environmental primitives of the media code: MD5 hex digest, extension
guessing from a MIME type (`mimetypes.guess_extension`), the network
(`none` = request exception), the UUID supply, and the file system's
failure oracles for writing and removing. -/
structure MediaEnv where
  md5hex : String → String
  guessExt : String → Option String
  net : String → Option HttpResponse
  uuidGen : Nat → String
  ioFailWrite : String → Bool
  ioFailRemove : String → Bool

/-- The Content-Type the fetcher records:
`response.headers.get('Content-Type', '').split(';')[0]`. -/
def respContentType (resp : HttpResponse) : String :=
  String.mk (resp.contentTypeHeader.data.takeWhile (fun c => c ≠ ';'))

/-- The inferred cache-file extension:
`mimetypes.guess_extension(content_type) or os.path.splitext(parsed_url.path)[1]`,
defaulting to `".bin"` when neither yields one. -/
def inferredExt (env : MediaEnv) (url : String) (resp : HttpResponse) : String :=
  let ext0 :=
    match env.guessExt (respContentType resp) with
    | some e => if e ≠ "" then e else splitextExt (urlparse url).path
    | none => splitextExt (urlparse url).path
  if ext0 = "" then ".bin" else ext0

/-- The cache path `os.path.join(MEDIA_CACHE_DIR, f"{url_hash}{ext}")` with
`url_hash = hashlib.md5(url.encode()).hexdigest()`. -/
def cachePath (env : MediaEnv) (url : String) (resp : HttpResponse) : String :=
  mEDIA_CACHE_DIR ++ "/" ++ env.md5hex url ++ inferredExt env url resp

/-- `fetch_media_from_url` (app/tools/media/core.py).  The third component
records whether `requests.get` was reached.  Any failure inside the `try`
(invalid URL, network exception, non-success status, write failure) yields
`none`; the UUID is drawn before the network call, as in the source. -/
def fetch_media_from_url (env : MediaEnv) (now : Int) (url : String)
    (session_id : Option String) (st : MediaState) :
    Option MediaMetadata × MediaState × Bool :=
  let p := urlparse url
  if ¬ (p.scheme ≠ "" ∧ p.netloc ≠ "") then (none, st, false)
  else
    let media_id := env.uuidGen st.uuidCounter
    let st1 : MediaState := { st with uuidCounter := st.uuidCounter + 1 }
    match env.net url with
    | none => (none, st1, true)
    | some resp =>
      if ¬ resp.ok then (none, st1, true)
      else
        let content_type := respContentType resp
        let media_type := url_to_media_type url (some content_type)
        let file_path := cachePath env url resp
        if env.ioFailWrite file_path then (none, st1, true)
        else
          let files' := (st1.files.filter (fun f => f.1 ≠ file_path)) ++ [(file_path, resp.body)]
          let metadata : MediaMetadata :=
            { media_id := media_id
              original_url := url
              local_path := file_path
              media_type := media_type
              content_type := content_type
              size := resp.body.length
              session_id := session_id
              download_date := now }
          (some metadata,
           { st1 with files := files', registry := st1.registry ++ [(media_id, metadata)] },
           true)

/-- `get_media_metadata`. -/
def get_media_metadata (st : MediaState) (media_id : String) : Option MediaMetadata :=
  st.registry.lookup media_id

/-- The sweep phase of `cleanup_old_media`: for each id, remove the cache
file if it exists (an `os.remove` failure is caught and leaves the entry
untouched), delete the registry entry and count it. -/
def cleanupSweep (env : MediaEnv) : List String → MediaState → Nat → Nat × MediaState
  | [], st, count => (count, st)
  | media_id :: rest, st, count =>
    match st.registry.lookup media_id with
    | none =>
      -- unreachable: `to_delete` ids come from the registry and are distinct
      cleanupSweep env rest st count
    | some metadata =>
      let fileExists := st.files.any (fun f => f.1 = metadata.local_path)
      if fileExists ∧ env.ioFailRemove metadata.local_path then
        cleanupSweep env rest st count
      else
        let files' :=
          if fileExists then st.files.filter (fun f => f.1 ≠ metadata.local_path) else st.files
        let registry' := st.registry.filter (fun p => p.1 ≠ media_id)
        cleanupSweep env rest { st with files := files', registry := registry' } (count + 1)

/-- `cleanup_old_media` (app/tools/media/core.py).  An item is old when its
age exceeds the threshold: `(now - download_date) / 3600 > max_age_hours`,
i.e. `now - download_date > max_age_hours * 3600` seconds (the float division
of the source is exact here because 3600 is positive). -/
def cleanup_old_media (env : MediaEnv) (now : Int) (max_age_hours : Int)
    (st : MediaState) : Nat × MediaState :=
  let to_delete :=
    (st.registry.filter (fun p => now - p.2.download_date > max_age_hours * 3600)).map (fun p => p.1)
  cleanupSweep env to_delete st 0

/-- The extraction engines behind `extract_media_content`
(app/tools/media/core.py): each returns the full marker-or-text string the
corresponding `extract_*` function produces (engine-unavailable, no-text and
error markers included); `textRead` is the plain-text `open(...).read()`
attempt (`none` = exception) and `audioFromVideo` is `extract_video_audio`
(`none` = engine unavailable or failure). -/
structure ExtractEnv where
  imageExtract : String → String
  pdfExtract : String → Nat → String
  textRead : String → Option String
  audioExtract : String → String
  audioFromVideo : String → Option String

/-- The type dispatch inside `extract_media_content` (the body of the `try`
before the record is marked processed). -/
def extractDispatch (env : ExtractEnv) (metadata : MediaMetadata) (max_pages : Nat) : String :=
  if metadata.media_type = "image" then env.imageExtract metadata.local_path
  else if metadata.media_type = "document" then
    if metadata.content_type = "application/pdf" then
      env.pdfExtract metadata.local_path max_pages
    else
      match env.textRead metadata.local_path with
      | some txt => "[Contenu textuel du fichier]\n\n" ++ txt
      | none =>
        "[Type de document (" ++ metadata.content_type ++ ") non directement extractible comme texte brut.]"
  else if metadata.media_type = "audio" then env.audioExtract metadata.local_path
  else if metadata.media_type = "video" then
    match env.audioFromVideo metadata.local_path with
    | some audio_path => env.audioExtract audio_path
    | none => "[Impossible d\x27extraire l\x27audio de la vidéo pour transcription.]"
  else
    "[Aucun contenu extractible ou type de média (" ++ metadata.media_type ++ ") non supporté pour l\x27extraction directe]"

/-- The registered tool `extract_media_content` (app/tools/media/tool.py).
Returns the tool's text and the registry state after the in-place mutation of
the record (`processed := true`, `processed_content := content`). -/
def extract_media_content (env : ExtractEnv) (media_id : String) (max_pages : Nat)
    (st : MediaState) : String × MediaState :=
  match get_media_metadata st media_id with
  | none => ("Média avec ID \x27" ++ media_id ++ "\x27 non trouvé.", st)
  | some metadata =>
    if metadata.processed ∧ metadata.processed_content.isSome then
      ("[Contenu déjà traité pour " ++ media_id ++ "]\n" ++ metadata.processed_content.getD "", st)
    else
      let content := extractDispatch env metadata max_pages
      let registry' := st.registry.map (fun p =>
        if p.1 = media_id then
          (p.1, { p.2 with processed := true, processed_content := some content })
        else p)
      (content, { st with registry := registry' })

/- ===================== Agent core (app/agents/agent.py) ===================== -/

/-- A Python value as it flows through `process_message`: the executor's
`result["output"]` is either a string or a dict. -/
inductive PyValue where
  | str (s : String)
  | dict (kvs : List (String × PyValue))

/-- `dict.get(k)` on an attribute map. -/
def dictGet (kvs : List (String × PyValue)) (k : String) : Option PyValue :=
  kvs.lookup k

mutual
/-- Python `repr` of a value (strings single-quoted, dicts braced). -/
def pyvalRepr : PyValue → String
  | PyValue.str s => "\x27" ++ s ++ "\x27"
  | PyValue.dict kvs => "\x7b" ++ pyvalReprKvs kvs ++ "\x7d"

/-- `repr` of a dict's comma-separated items. -/
def pyvalReprKvs : List (String × PyValue) → String
  | [] => ""
  | [kv] => "\x27" ++ kv.1 ++ "\x27: " ++ pyvalRepr kv.2
  | kv :: rest => "\x27" ++ kv.1 ++ "\x27: " ++ pyvalRepr kv.2 ++ ", " ++ pyvalReprKvs rest
end

/-- Python `str` of a value (the identity on strings, `repr` on dicts), as
used by f-string interpolation. -/
def pyvalStr : PyValue → String
  | PyValue.str s => s
  | PyValue.dict kvs => pyvalRepr (PyValue.dict kvs)

/-- Python truthiness of a value. -/
def pyTruthy : PyValue → Bool
  | PyValue.str s => s ≠ ""
  | PyValue.dict kvs => ¬ kvs.isEmpty

/-- One intermediate step `(action, observation)`: `log` is `action.log`
(the model's reasoning text with the formatted action block), `actionStr` is
`str(action)` (the rendering scanned by the iteration-limit heuristic),
`observation` is the tool's textual return value. -/
structure AgentStep where
  log : String
  actionStr : String
  observation : String

/-- What one `self.agent.invoke(...)` call produces: the executor result's
`output` and `intermediate_steps` entries, plus the finish reason that the
`FinishReasonCallbackHandler` holds after the call (from the last LLM
completion of the run; `none` when the provider reported none). -/
structure InvokeResult where
  output : PyValue
  intermediateSteps : List AgentStep
  finishReason : Option String

/-- The input dict passed to `self.agent.invoke`. -/
structure InvokeInputs where
  input : String
  chatHistory : List (String × String)
  scratchpad : String

/-- The LLM-and-executor oracle: the result of the n-th `agent.invoke` call
of this `process_message` call (indexed so that repeated attempts with equal
inputs may still differ). -/
def AgentEnv := Nat → InvokeInputs → InvokeResult

/-- An oracle for `json.loads` restricted to the shapes the agent consumes:
`some kvs` when the string parses as a JSON object, `none` when parsing
raises `JSONDecodeError`. -/
def JsonLoads := String → Option (List (String × PyValue))

/-- Conversation memory as a role/content transcript; the chain appends one
human and one AI turn per `agent.invoke`. -/
abbrev Memory := List (String × String)

/-- `_format_scratchpad_for_llm`: each step contributes its stripped
`action.log` and a stripped `Observation:` line; a trailing `Thought:` is
added when any step exists; parts are newline-joined. -/
def format_scratchpad_for_llm (steps : List AgentStep) : String :=
  let parts := (steps.map (fun st => [pyStrip st.log, "Observation: " ++ pyStrip st.observation])).flatten
  let parts := if parts.isEmpty then parts else parts ++ ["Thought:"]
  String.intercalate "\n" parts

/-- Whether a dict carries `"action": "Final Answer"`. -/
def isActionFinal (kvs : List (String × PyValue)) : Bool :=
  match dictGet kvs "action" with
  | some (PyValue.str a) => a = "Final Answer"
  | _ => false

/-- The final-answer recognition of the retry loop: a brace-wrapped string is
parsed as JSON and its `action` field compared to `"Final Answer"` (a parse
failure falls back to the substring test); any other string is recognised
when it contains the literal substring `"Final Answer"`; a dict is recognised
by its `action` field. -/
def isFinalAnswer (jl : JsonLoads) : PyValue → Bool
  | PyValue.str s =>
    if pyStartsWith (pyStrip s) "\x7b" ∧ pyEndsWith (pyStrip s) "\x7d" then
      match jl s with
      | some kvs => isActionFinal kvs
      | none => strContains s "Final Answer"
    else strContains s "Final Answer"
  | PyValue.dict kvs => isActionFinal kvs

/-- The retry loop of `process_message` (up to `max_attempts = 3` invokes):
each attempt invokes the agent on the constant message and chat history with
the accumulated scratchpad, appends the attempt's formatted steps to the
scratchpad, and stops early on a recognised final answer.  Returns the last
result, the accumulated scratchpad, the inputs of every attempt made, the
next call index and the memory (extended by the chain's per-invoke save). -/
def retryLoop (env : AgentEnv) (jl : JsonLoads) (message : String)
    (chatHistory : List (String × String)) :
    Nat → Nat → String → List InvokeInputs → Memory → Option InvokeResult →
    Option InvokeResult × String × List InvokeInputs × Nat × Memory
  | 0, callIdx, scratch, trace, mem, res => (res, scratch, trace, callIdx, mem)
  | n + 1, callIdx, scratch, trace, mem, _ =>
    let inputs : InvokeInputs := ⟨message, chatHistory, scratch⟩
    let r := env callIdx inputs
    let mem' := mem ++ [("human", message), ("ai", pyvalStr r.output)]
    let scratch' :=
      if r.intermediateSteps.isEmpty then scratch
      else scratch ++ format_scratchpad_for_llm r.intermediateSteps
    if isFinalAnswer jl r.output then
      (some r, scratch', trace ++ [inputs], callIdx + 1, mem')
    else
      retryLoop env jl message chatHistory n (callIdx + 1) scratch' (trace ++ [inputs]) mem' (some r)

/-- The fixed continuation instruction string. -/
def continuationPrompt : String :=
  "Continuez la réponse précédente. Assurez-vous de terminer la pensée ou l\x27action en cours, et fournissez une réponse complète et finale si possible."

/-- The synthetic input of a continuation call, quoting the current output. -/
def continuationMessage (currentOutput : PyValue) : String :=
  "La réponse précédente était incomplète car elle a été tronquée. Voici la réponse partielle: \n"
    ++ pyvalStr currentOutput ++ "\n\nInstructions: " ++ continuationPrompt

/-- The state threaded through the truncation-continuation loop and into the
post-processing of `process_message`. -/
structure ContState where
  currentOutput : PyValue
  result : InvokeResult
  scratch : String
  lastSteps : List AgentStep
  finishReason : Option String
  callIdx : Nat
  trace : List InvokeInputs
  mem : Memory

/-- The truncation-continuation loop (`while finish_reason == "length"`, at
most `max_continuation_attempts = 2` rounds).  A round invokes the agent on
the synthetic continuation input; when the new output segment is truthy both
sides of the `f"{current_output.rstrip()}\n{segment.lstrip()}"` join must be
strings — otherwise the `AttributeError` is caught and the loop breaks with
`result` and the local `finish_reason` unchanged. -/
def continuationLoop (env : AgentEnv) (chatHistory : List (String × String)) :
    Nat → ContState → ContState
  | 0, st => st
  | n + 1, st =>
    if st.finishReason = some "length" then
      let contMsg := continuationMessage st.currentOutput
      let inputs : InvokeInputs := ⟨contMsg, chatHistory, st.scratch⟩
      let r := env st.callIdx inputs
      let mem' := st.mem ++ [("human", contMsg), ("ai", pyvalStr r.output)]
      let broken : Bool :=
        pyTruthy r.output &&
          ! ((match st.currentOutput with | PyValue.str _ => true | _ => false) &&
             (match r.output with | PyValue.str _ => true | _ => false))
      if broken then
        { st with callIdx := st.callIdx + 1, trace := st.trace ++ [inputs], mem := mem' }
      else
        let currentOutput' :=
          match st.currentOutput, r.output, pyTruthy r.output with
          | PyValue.str cur, PyValue.str s, true => PyValue.str (pyRstrip cur ++ "\n" ++ pyLstrip s)
          | cur, _, _ => cur
        let scratch' :=
          if r.intermediateSteps.isEmpty then st.scratch
          else st.scratch ++ format_scratchpad_for_llm r.intermediateSteps
        let lastSteps' :=
          if r.intermediateSteps.isEmpty then st.lastSteps
          else st.lastSteps ++ r.intermediateSteps
        let st' : ContState :=
          { currentOutput := currentOutput'
            result := r
            scratch := scratch'
            lastSteps := lastSteps'
            finishReason := r.finishReason
            callIdx := st.callIdx + 1
            trace := st.trace ++ [inputs]
            mem := mem' }
        if r.finishReason ≠ some "length" then st' else continuationLoop env chatHistory n st'
    else st

/-- The post-loop extraction: a brace-wrapped string or a dict carrying
`"action": "Final Answer"` is replaced by its `action_input` (with a fixed
apology when the field is absent); a parse failure keeps the response
unchanged. -/
def postExtract (jl : JsonLoads) (response : PyValue) : PyValue :=
  match response with
  | PyValue.str s =>
    if pyStartsWith (pyStrip s) "\x7b" ∧ pyEndsWith (pyStrip s) "\x7d" then
      match jl s with
      | some kvs =>
        if isActionFinal kvs then
          (dictGet kvs "action_input").getD (PyValue.str "Je n\x27ai pas de réponse à cette question.")
        else PyValue.str s
      | none => PyValue.str s
    else PyValue.str s
  | PyValue.dict kvs =>
    if isActionFinal kvs then
      (dictGet kvs "action_input").getD (PyValue.str "Je n\x27ai pas de réponse à cette question.")
    else PyValue.dict kvs

/-- Python's `"Agent stopped due to iteration limit" in response`: substring
test on a string, key-membership test on a dict. -/
def containsIterLimit (v : PyValue) : Bool :=
  match v with
  | PyValue.str s => strContains s "Agent stopped due to iteration limit"
  | PyValue.dict kvs => kvs.any (fun kv => kv.1 = "Agent stopped due to iteration limit")

/-- The predicate of the iteration-limit recovery: a `calculer_date` action
mentioning `weekday` whose observation contains `"prochain lundi"`. -/
def heuristicStep (st : AgentStep) : Bool :=
  strContains st.actionStr "calculer_date" ∧ strContains st.actionStr "weekday" ∧
    strContains st.observation "prochain lundi"

/-- The iteration-limit recovery: scan the steps most-recent-first for a
matching observation, then (when the marker is still present) once more in
order. -/
def iterLimitHeuristic (response : PyValue) (steps : List AgentStep) : PyValue :=
  if ¬ containsIterLimit response then response
  else if steps.isEmpty then response
  else
    let response1 :=
      match steps.reverse.find? heuristicStep with
      | some st => PyValue.str st.observation
      | none => response
    if containsIterLimit response1 then
      match steps.find? heuristicStep with
      | some st => PyValue.str st.observation
      | none => response1
    else response1

/-- What one `process_message` call produces, together with the observable
state it leaves behind. -/
structure ProcessResult where
  response : String
  mem : Memory
  trace : List InvokeInputs
  callCount : Nat
  lastSteps : List AgentStep

/-- `Agent.process_message` (app/agents/agent.py).  The first statement
clears the conversation memory; the chat history loaded afterwards is
therefore empty for every invoke of the call.  The retry loop (3 attempts)
runs first, then the truncation-continuation loop (2 rounds), then the
final-answer extraction and the iteration-limit recovery.  The closing log
statement slices `response[:50]`, so a non-string response raises there and
the top-level boundary converts it to the plain error text. -/
def process_message (env : AgentEnv) (jl : JsonLoads) (mem0 : Memory)
    (message : String) : ProcessResult :=
  -- self.memory.clear()
  let mem : Memory := []
  -- chat_history_messages: read from the just-cleared memory
  let chatHistory := mem
  match retryLoop env jl message chatHistory 3 0 "" [] mem none with
  | (none, scratch, trace, callIdx, mem) =>
    -- unreachable with 3 attempts; `if not result` in the source
    let _ := scratch
    { response := "L\x27agent n\x27a pas pu générer de réponse après plusieurs tentatives."
      mem := mem, trace := trace, callCount := callIdx, lastSteps := [] }
  | (some result, scratch, trace, callIdx, mem) =>
    let st0 : ContState :=
      { currentOutput := result.output
        result := result
        scratch := scratch
        lastSteps := result.intermediateSteps
        finishReason := result.finishReason
        callIdx := callIdx
        trace := trace
        mem := mem }
    let st := continuationLoop env chatHistory 2 st0
    let response := st.currentOutput
    let response := postExtract jl response
    let response := iterLimitHeuristic response st.lastSteps
    match response with
    | PyValue.str s =>
      { response := s, mem := st.mem, trace := st.trace, callCount := st.callIdx,
        lastSteps := st.lastSteps }
    | PyValue.dict _ =>
      { response := "Une erreur s\x27est produite: unhashable type: \x27slice\x27"
        mem := st.mem, trace := st.trace, callCount := st.callIdx, lastSteps := st.lastSteps }

/-- The accumulated scratchpad at the start of attempt `k` of the retry
loop: empty initially, extended by each previous attempt's formatted steps
and never reset. -/
def scratchAt (env : AgentEnv) (message : String)
    (hist : List (String × String)) : Nat → String
  | 0 => ""
  | k + 1 =>
    let s := scratchAt env message hist k
    let r := env k ⟨message, hist, s⟩
    if r.intermediateSteps.isEmpty then s
    else s ++ format_scratchpad_for_llm r.intermediateSteps

/-- Whether attempt `k` of the retry loop is recognised as a final answer. -/
def recognizedAt (env : AgentEnv) (jl : JsonLoads) (message : String)
    (hist : List (String × String)) (k : Nat) : Bool :=
  isFinalAnswer jl (env k ⟨message, hist, scratchAt env message hist k⟩).output

/-- The number of attempts the retry loop makes: the first recognised
attempt, or all `max_attempts = 3`. -/
def attemptsTaken (env : AgentEnv) (jl : JsonLoads) (message : String)
    (hist : List (String × String)) : Nat :=
  if recognizedAt env jl message hist 0 then 1
  else if recognizedAt env jl message hist 1 then 2
  else 3

/- Concrete fixtures used by the witness theorems. -/

/-- A concrete media environment: one known URL serving a 5-byte PDF, no
extension guess, sequentially numbered UUIDs, no I/O failures. -/
def fixEnv : MediaEnv :=
  { md5hex := fun _ => "f00d"
    guessExt := fun _ => none
    net := fun u =>
      if u = "https://e.com/a.pdf" then some ⟨true, "application/pdf", "BODY!"⟩ else none
    uuidGen := fun n => toString n
    ioFailWrite := fun _ => false
    ioFailRemove := fun _ => false }

/-- A concrete registry record as `fixEnv` would produce it. -/
def fixMd : MediaMetadata :=
  { media_id := "m1"
    original_url := "https://e.com/a.pdf"
    local_path := "media_cache/f00d.pdf"
    media_type := "document"
    content_type := "application/pdf"
    size := 5
    session_id := none
    download_date := 0 }

/-- A concrete media state holding `fixMd` and its cache file. -/
def fixSt : MediaState :=
  { registry := [("m1", fixMd)]
    files := [("media_cache/f00d.pdf", "BODY!")]
    uuidCounter := 1 }

/-- A concrete extraction environment: OCR unavailable (marker string), PDF
extraction succeeding, no plain-text read, a fixed transcription, no video
demuxer. -/
def fixXEnv : ExtractEnv :=
  { imageExtract := fun _ => "[Extraction d\x27OCR impossible: pytesseract n\x27est pas installé]"
    pdfExtract := fun _ _ => "[Texte extrait du PDF]\n\nPDFTEXT"
    textRead := fun _ => none
    audioExtract := fun _ => "[Transcription audio]\n\nAUD"
    audioFromVideo := fun _ => none }

/-- A concrete LLM oracle that emits a final-answer object with
`action_input = "X"` on every call (in particular on its first). -/
def fixAEnv : AgentEnv := fun _ _ =>
  ⟨PyValue.dict [("action", PyValue.str "Final Answer"), ("action_input", PyValue.str "X")],
   [], some "stop"⟩

/-- A concrete `json.loads` oracle that always fails to parse (the dict
output path of `fixAEnv` never consults it). -/
def fixJl : JsonLoads := fun _ => none

/- ===================== Theorems ===================== -/

/-- In the non-bypass path `validate_key` reduces to the hash lookup
cascade. -/
theorem validate_key_main (cfg : AuthSettings) (hashFn : String → String) (now : Int)
    (api_key scope : String) (store : KeyStore)
    (hk : api_key ≠ "")
    (hb : ¬ (lowerStr cfg.environment = "development" ∧ api_key = cfg.admin_api_key)) :
    validate_key cfg hashFn now api_key scope store =
      (match store.lookup (hashFn api_key) with
       | none => ((false, some "Invalid API key", none), store)
       | some key_data =>
         if key_data.expires_at < now then
           ((false, some "API key expired", some key_data), store)
         else if ¬ key_data.scopes.contains scope then
           ((false, some ("API key does not have " ++ scope ++ " permission"), some key_data), store)
         else
           let kd1 :=
             if now - key_data.last_reset > 86400 then
               { key_data with request_count := 0, last_reset := now }
             else key_data
           if kd1.rate_limit ≤ kd1.request_count then
             ((false, some "Rate limit exceeded", some kd1), storeSet (hashFn api_key) kd1 store)
           else
             let kd2 := { kd1 with request_count := kd1.request_count + 1 }
             ((true, none, some kd2), storeSet (hashFn api_key) kd2 store)) := by
  unfold validate_key
  rw [if_neg hk, if_neg hb]

/-- A successful validation against a singleton store bumps the counter in
the returned record and in the store. -/
theorem validate_key_success_singleton (cfg : AuthSettings) (hashFn : String → String)
    (now : Int) (api_key : String) (kd : KeyData)
    (hk : api_key ≠ "")
    (hb : ¬ (lowerStr cfg.environment = "development" ∧ api_key = cfg.admin_api_key))
    (hexp : ¬ kd.expires_at < now) (hscope : kd.scopes.contains "chat")
    (hreset : ¬ now - kd.last_reset > 86400) (hrl : kd.request_count < kd.rate_limit) :
    validate_key cfg hashFn now api_key "chat" [(hashFn api_key, kd)] =
      ((true, none, some { kd with request_count := kd.request_count + 1 }),
       [(hashFn api_key, { kd with request_count := kd.request_count + 1 })]) := by
  rw [validate_key_main cfg hashFn now api_key "chat" _ hk hb]
  have hs : "chat" ∈ kd.scopes := by simpa using hscope
  simp [List.lookup, hexp, hs, hreset, storeSet, Nat.not_le.mpr hrl]

/-- A rate-limited validation against a singleton store (no daily reset due)
leaves the record unchanged. -/
theorem validate_key_limited_singleton (cfg : AuthSettings) (hashFn : String → String)
    (now : Int) (api_key : String) (kd : KeyData)
    (hk : api_key ≠ "")
    (hb : ¬ (lowerStr cfg.environment = "development" ∧ api_key = cfg.admin_api_key))
    (hexp : ¬ kd.expires_at < now) (hscope : kd.scopes.contains "chat")
    (hreset : ¬ now - kd.last_reset > 86400) (hrl : kd.rate_limit ≤ kd.request_count) :
    validate_key cfg hashFn now api_key "chat" [(hashFn api_key, kd)] =
      ((false, some "Rate limit exceeded", some kd), [(hashFn api_key, kd)]) := by
  rw [validate_key_main cfg hashFn now api_key "chat" _ hk hb]
  have hs : "chat" ∈ kd.scopes := by simpa using hscope
  simp [List.lookup, hexp, hs, hreset, storeSet, hrl]

/-- C3: for every stored record, `validate_key` fails NotFound when the hash
is absent; otherwise Expired when now is past `expires_at` (even with unused
rate budget); otherwise Forbidden when the scope is missing; otherwise resets
`request_count` to 0 and `last_reset` to now when more than 86400 seconds
have elapsed, then fails RateLimited when `request_count ≥ rate_limit` and
otherwise increments `request_count` and succeeds — and a freshly registered
key with `rate_limit = 3` yields exactly three same-day successes with counts
1, 2, 3 and a RateLimited failure on the fourth call. -/
theorem C3_validate_key_cascade (cfg : AuthSettings) (hashFn : String → String)
    (now : Int) (api_key scope : String) (store : KeyStore)
    (hk : api_key ≠ "")
    (hb : ¬ (lowerStr cfg.environment = "development" ∧ api_key = cfg.admin_api_key)) :
    ((store.lookup (hashFn api_key) = none →
       validate_key cfg hashFn now api_key scope store
         = ((false, some "Invalid API key", none), store)) ∧
     (∀ kd, store.lookup (hashFn api_key) = some kd →
       (kd.expires_at < now →
         validate_key cfg hashFn now api_key scope store
           = ((false, some "API key expired", some kd), store)) ∧
       (¬ kd.expires_at < now → ¬ kd.scopes.contains scope →
         validate_key cfg hashFn now api_key scope store
           = ((false, some ("API key does not have " ++ scope ++ " permission"), some kd), store)) ∧
       (¬ kd.expires_at < now → kd.scopes.contains scope →
         validate_key cfg hashFn now api_key scope store =
           (let kd1 :=
              if now - kd.last_reset > 86400 then
                { kd with request_count := 0, last_reset := now }
              else kd
            if kd1.rate_limit ≤ kd1.request_count then
              ((false, some "Rate limit exceeded", some kd1), storeSet (hashFn api_key) kd1 store)
            else
              ((true, none, some { kd1 with request_count := kd1.request_count + 1 }),
               storeSet (hashFn api_key) { kd1 with request_count := kd1.request_count + 1 } store)))) ∧
     (∀ t0 : Int, 0 ≤ now - t0 → now - t0 ≤ 86400 →
       let s1 := (register_key hashFn t0 api_key ["chat"] 30 3 []).2
       let v1 := validate_key cfg hashFn now api_key "chat" s1
       let v2 := validate_key cfg hashFn now api_key "chat" v1.2
       let v3 := validate_key cfg hashFn now api_key "chat" v2.2
       let v4 := validate_key cfg hashFn now api_key "chat" v3.2
       v1.1.1 = true ∧ v1.1.2.2.map KeyData.request_count = some 1 ∧
       v2.1.1 = true ∧ v2.1.2.2.map KeyData.request_count = some 2 ∧
       v3.1.1 = true ∧ v3.1.2.2.map KeyData.request_count = some 3 ∧
       v4.1.1 = false ∧ v4.1.2.1 = some "Rate limit exceeded")) := by
  refine ⟨fun hnone => ?_, fun kd hsome => ⟨fun hexp => ?_, fun hexp hsc => ?_, fun hexp hsc => ?_⟩,
    fun t0 h0 h1 => ?_⟩
  · rw [validate_key_main cfg hashFn now api_key scope store hk hb, hnone]
  · rw [validate_key_main cfg hashFn now api_key scope store hk hb, hsome]
    dsimp only
    rw [if_pos hexp]
  · rw [validate_key_main cfg hashFn now api_key scope store hk hb, hsome]
    dsimp only
    rw [if_neg hexp, if_pos hsc]
  · rw [validate_key_main cfg hashFn now api_key scope store hk hb, hsome]
    dsimp only
    rw [if_neg hexp, if_neg (not_not_intro hsc)]
  · have hkd0 : (register_key hashFn t0 api_key ["chat"] 30 3 []).2 =
        [(hashFn api_key, (register_key hashFn t0 api_key ["chat"] 30 3 []).1)] := by
      simp [register_key, storeSet]
    set kd0 : KeyData := (register_key hashFn t0 api_key ["chat"] 30 3 []).1 with hkd0def
    have hfields : kd0.expires_at = t0 + 2592000 ∧ kd0.scopes = ["chat"] ∧
        kd0.rate_limit = 3 ∧ kd0.request_count = 0 ∧ kd0.last_reset = t0 := by
      simp [hkd0def, register_key]
    obtain ⟨he, hsc, hr, hc, hl⟩ := hfields
    have hexp : ¬ kd0.expires_at < now := by rw [he]; omega
    have hreset : ¬ now - kd0.last_reset > 86400 := by rw [hl]; omega
    have hcontains : kd0.scopes.contains "chat" := by rw [hsc]; decide
    have step : ∀ n : Nat, n < 3 →
        validate_key cfg hashFn now api_key "chat"
            [(hashFn api_key, { kd0 with request_count := n })] =
          ((true, none, some { kd0 with request_count := n + 1 }),
           [(hashFn api_key, { kd0 with request_count := n + 1 })]) := by
      intro n hn
      exact validate_key_success_singleton cfg hashFn now api_key _ hk hb
        (by simpa using hexp) (by simpa using hcontains) (by simpa using hreset)
        (by simpa [hr] using hn)
    have hzero : ({ kd0 with request_count := 0 } : KeyData) = kd0 := by
      rw [← hc]
    intro s1 v1 v2 v3 v4
    have hs1 : s1 = [(hashFn api_key, { kd0 with request_count := 0 })] := by
      show (register_key hashFn t0 api_key ["chat"] 30 3 []).2 = _
      rw [hkd0, hzero]
    have hv1 : v1 = ((true, none, some { kd0 with request_count := 1 }),
        [(hashFn api_key, { kd0 with request_count := 1 })]) := by
      show validate_key cfg hashFn now api_key "chat" s1 = _
      rw [hs1]; exact step 0 (by norm_num)
    have hv2 : v2 = ((true, none, some { kd0 with request_count := 2 }),
        [(hashFn api_key, { kd0 with request_count := 2 })]) := by
      show validate_key cfg hashFn now api_key "chat" v1.2 = _
      rw [hv1]; exact step 1 (by norm_num)
    have hv3 : v3 = ((true, none, some { kd0 with request_count := 3 }),
        [(hashFn api_key, { kd0 with request_count := 3 })]) := by
      show validate_key cfg hashFn now api_key "chat" v2.2 = _
      rw [hv2]; exact step 2 (by norm_num)
    have hv4 : v4 = ((false, some "Rate limit exceeded", some { kd0 with request_count := 3 }),
        [(hashFn api_key, { kd0 with request_count := 3 })]) := by
      show validate_key cfg hashFn now api_key "chat" v3.2 = _
      rw [hv3]
      exact validate_key_limited_singleton cfg hashFn now api_key _ hk hb
        (by simpa using hexp) (by simpa using hcontains) (by simpa using hreset)
        (by simp [hr])
    rw [hv1, hv2, hv3, hv4]
    simp

/-- Witness for C3 at a concrete production configuration and key. -/
theorem C3_validate_key_cascade_witness :
    ("sk-a.b" ≠ "" ∧
      ¬ (lowerStr (⟨"production", "admin-key"⟩ : AuthSettings).environment = "development" ∧
         "sk-a.b" = (⟨"production", "admin-key"⟩ : AuthSettings).admin_api_key)) ∧
    ((([] : KeyStore).lookup (id "sk-a.b") = none →
       validate_key ⟨"production", "admin-key"⟩ id 86400 "sk-a.b" "chat" []
         = ((false, some "Invalid API key", none), [])) ∧
     (∀ kd, ([] : KeyStore).lookup (id "sk-a.b") = some kd →
       (kd.expires_at < 86400 →
         validate_key ⟨"production", "admin-key"⟩ id 86400 "sk-a.b" "chat" []
           = ((false, some "API key expired", some kd), [])) ∧
       (¬ kd.expires_at < 86400 → ¬ kd.scopes.contains "chat" →
         validate_key ⟨"production", "admin-key"⟩ id 86400 "sk-a.b" "chat" []
           = ((false, some ("API key does not have " ++ "chat" ++ " permission"), some kd), [])) ∧
       (¬ kd.expires_at < 86400 → kd.scopes.contains "chat" →
         validate_key ⟨"production", "admin-key"⟩ id 86400 "sk-a.b" "chat" [] =
           (let kd1 :=
              if (86400 : Int) - kd.last_reset > 86400 then
                { kd with request_count := 0, last_reset := 86400 }
              else kd
            if kd1.rate_limit ≤ kd1.request_count then
              ((false, some "Rate limit exceeded", some kd1), storeSet (id "sk-a.b") kd1 [])
            else
              ((true, none, some { kd1 with request_count := kd1.request_count + 1 }),
               storeSet (id "sk-a.b") { kd1 with request_count := kd1.request_count + 1 } [])))) ∧
     (∀ t0 : Int, 0 ≤ 86400 - t0 → 86400 - t0 ≤ 86400 →
       let s1 := (register_key id t0 "sk-a.b" ["chat"] 30 3 []).2
       let v1 := validate_key ⟨"production", "admin-key"⟩ id 86400 "sk-a.b" "chat" s1
       let v2 := validate_key ⟨"production", "admin-key"⟩ id 86400 "sk-a.b" "chat" v1.2
       let v3 := validate_key ⟨"production", "admin-key"⟩ id 86400 "sk-a.b" "chat" v2.2
       let v4 := validate_key ⟨"production", "admin-key"⟩ id 86400 "sk-a.b" "chat" v3.2
       v1.1.1 = true ∧ v1.1.2.2.map KeyData.request_count = some 1 ∧
       v2.1.1 = true ∧ v2.1.2.2.map KeyData.request_count = some 2 ∧
       v3.1.1 = true ∧ v3.1.2.2.map KeyData.request_count = some 3 ∧
       v4.1.1 = false ∧ v4.1.2.1 = some "Rate limit exceeded")) :=
  ⟨⟨by decide, fun h => absurd h.2 (by decide)⟩,
   C3_validate_key_cascade ⟨"production", "admin-key"⟩ id 86400 "sk-a.b" "chat" []
     (by decide) (fun h => absurd h.2 (by decide))⟩

/-- C1: `POST /auth/keys` can never return the 200 payload: `APIKeyManager`
has no `create_key` method, so for every admin-authenticated request the
handler's call `key_manager.create_key(...)` raises `AttributeError` and the
route answers HTTP 500 — no key is minted, and no plaintext key, scopes,
expiry or rate limit are ever returned. -/
theorem C1_create_api_key_always_500 :
    ("create_key" ∈ aPIKeyManagerMethods ↔ False) ∧
    (∀ scopes expires_in_days rate_limit,
      create_api_key scopes expires_in_days rate_limit =
        KeyRouteOutcome.http500
          "Internal server error: \x27APIKeyManager\x27 object has no attribute \x27create_key\x27") ∧
    (∀ scopes expires_in_days rate_limit key_id api_key sc exp rl,
      create_api_key scopes expires_in_days rate_limit ≠
        KeyRouteOutcome.ok200 key_id api_key sc exp rl) := by
  refine ⟨by decide, fun _ _ _ => rfl, fun _ _ _ _ _ _ _ _ => ?_⟩
  intro h
  exact KeyRouteOutcome.noConfusion h

/-- C2: whenever the environment is not development-with-debug, `get_api_key`
answers 401 for a missing credential and for a credential with the wrong
prefix, but every credential that passes the prefix check — in particular any
for which `validate_key` reports a failure — makes the gate raise
`ValueError` (the 2-name unpacking of `validate_key`'s 3-tuple), which
surfaces as HTTP 500, not as Unauthorized. -/
theorem C2_get_api_key_unpack_valueerror (cfg : GateSettings) (hashFn : String → String)
    (now : Int) (store : KeyStore)
    (hnb : ¬ (cfg.environment = "development" ∧ cfg.debug_mode = true)) :
    (get_api_key cfg hashFn now none store
      = (GateOutcome.unauthorized "Invalid API key", store)) ∧
    (∀ k, ¬ pyStartsWith k cfg.api_key_pfx →
      get_api_key cfg hashFn now (some k) store
        = (GateOutcome.unauthorized "Invalid API key format", store)) ∧
    (∀ k, pyStartsWith k cfg.api_key_pfx →
      (get_api_key cfg hashFn now (some k) store).1
        = GateOutcome.valueError "too many values to unpack (expected 2)" ∧
      ∀ d, (get_api_key cfg hashFn now (some k) store).1 ≠ GateOutcome.unauthorized d) := by
  refine ⟨?_, fun k hpfx => ?_, fun k hpfx => ⟨?_, fun d => ?_⟩⟩
  · unfold get_api_key
    rw [if_neg hnb]
  · unfold get_api_key
    rw [if_neg hnb]
    dsimp only
    rw [if_pos hpfx]
  · unfold get_api_key
    rw [if_neg hnb]
    dsimp only
    rw [if_neg (not_not_intro hpfx)]
  · unfold get_api_key
    rw [if_neg hnb]
    dsimp only
    rw [if_neg (not_not_intro hpfx)]
    intro h
    exact GateOutcome.noConfusion h

/-- Witness for C2 in a production configuration with the default prefix. -/
theorem C2_get_api_key_unpack_valueerror_witness :
    (¬ ((⟨"production", true, "sk-", "admin-key"⟩ : GateSettings).environment = "development" ∧
        (⟨"production", true, "sk-", "admin-key"⟩ : GateSettings).debug_mode = true)) ∧
    ((get_api_key ⟨"production", true, "sk-", "admin-key"⟩ id 0 none []
       = (GateOutcome.unauthorized "Invalid API key", [])) ∧
     (∀ k, ¬ pyStartsWith k (⟨"production", true, "sk-", "admin-key"⟩ : GateSettings).api_key_pfx →
       get_api_key ⟨"production", true, "sk-", "admin-key"⟩ id 0 (some k) []
         = (GateOutcome.unauthorized "Invalid API key format", [])) ∧
     (∀ k, pyStartsWith k (⟨"production", true, "sk-", "admin-key"⟩ : GateSettings).api_key_pfx →
       (get_api_key ⟨"production", true, "sk-", "admin-key"⟩ id 0 (some k) []).1
         = GateOutcome.valueError "too many values to unpack (expected 2)" ∧
       ∀ d, (get_api_key ⟨"production", true, "sk-", "admin-key"⟩ id 0 (some k) []).1
         ≠ GateOutcome.unauthorized d)) :=
  ⟨fun h => absurd h.1 (by decide),
   C2_get_api_key_unpack_valueerror ⟨"production", true, "sk-", "admin-key"⟩ id 0 []
     (fun h => absurd h.1 (by decide))⟩

/-- C6: with `days = 0` and `weeks = 0`, `calculer_date` returns the
InvalidInput error string (not a raised fault) for a weekday outside `[0, 6]`;
for a weekday in range it returns `today + days_ahead` rendered through the
given format, where `days_ahead = weekday - today.weekday()` plus 7 when that
difference is nonpositive, so the result is 1 to 7 days ahead, lands on the
requested weekday, and is never today — even when the requested weekday
equals today's. -/
theorem C6_calculer_date_next_weekday (strftime : String → Int → String)
    (today : Int) (w : Int) (fmt : String) :
    ((w < 0 ∨ 6 < w) →
      calculer_date strftime today 0 0 (some w) fmt =
        "Erreur: weekday (" ++ toString w ++ ") doit être entre 0 (lundi) et 6 (dimanche).") ∧
    (0 ≤ w → w ≤ 6 →
      ∃ days_ahead : Int, 1 ≤ days_ahead ∧ days_ahead ≤ 7 ∧
        calculer_date strftime today 0 0 (some w) fmt = strftime fmt (today + days_ahead) ∧
        dateWeekday (today + days_ahead) = w ∧
        today + days_ahead ≠ today ∧
        (dateWeekday today = w → days_ahead = 7)) := by
  have hcw0 : 0 ≤ dateWeekday today := by
    unfold dateWeekday; omega
  have hcw6 : dateWeekday today < 7 := by
    unfold dateWeekday; omega
  constructor
  · intro hbad
    unfold calculer_date calculate_date_core
    rw [if_neg (by simp)]
    dsimp only
    rw [if_pos (by omega)]
  · intro h0 h6
    refine ⟨if w - dateWeekday today ≤ 0 then w - dateWeekday today + 7
            else w - dateWeekday today, by omega, by omega, ?_, ?_, by omega, by omega⟩
    · unfold calculer_date calculate_date_core
      rw [if_neg (by simp)]
      dsimp only
      rw [if_neg (by omega)]
    · unfold dateWeekday
      unfold dateWeekday at hcw0 hcw6
      by_cases hda : w - (today - 1) % 7 ≤ 0 <;> simp only [hda, if_pos, if_neg] <;> omega

/-- Witness for C6 on the reference Friday 2025-05-16 (ordinal 739387,
weekday 4): requesting Monday (0) yields ordinal 739390 = 2025-05-19, and
weekday 7 yields the error string. -/
theorem C6_calculer_date_next_weekday_witness :
    (((0 : Int) < 0 ∨ (6 : Int) < (0 : Int)) →
      calculer_date (fun _ d => toString d) 739387 0 0 (some 0) "%d/%m/%Y" =
        "Erreur: weekday (" ++ toString (0 : Int) ++ ") doit être entre 0 (lundi) et 6 (dimanche).") ∧
    ((0 : Int) ≤ 0 → (0 : Int) ≤ 6 →
      ∃ days_ahead : Int, 1 ≤ days_ahead ∧ days_ahead ≤ 7 ∧
        calculer_date (fun _ d => toString d) 739387 0 0 (some 0) "%d/%m/%Y" =
          (fun _ d => toString d) "%d/%m/%Y" (739387 + days_ahead) ∧
        dateWeekday (739387 + days_ahead) = 0 ∧
        739387 + days_ahead ≠ (739387 : Int) ∧
        (dateWeekday 739387 = 0 → days_ahead = 7)) ∧
    calculer_date (fun _ d => toString d) 739387 0 0 (some 0) "%d/%m/%Y" = "739390" ∧
    calculer_date (fun _ d => toString d) 739387 0 0 (some 7) "%d/%m/%Y" =
      "Erreur: weekday (7) doit être entre 0 (lundi) et 6 (dimanche)." :=
  ⟨(C6_calculer_date_next_weekday (fun _ d => toString d) 739387 0 "%d/%m/%Y").1,
   (C6_calculer_date_next_weekday (fun _ d => toString d) 739387 0 "%d/%m/%Y").2,
   by decide, by decide⟩

/-- C7: `fetch_media_from_url` returns absent without reaching the network
for a URL lacking both scheme and host; a successful fetch registers and
returns a fresh record whose `size` is the number of downloaded bytes and
whose cache file is `media_cache/<md5(url)><ext>` with the inferred extension
(".bin" when none is inferable, inside `inferredExt`); and every failing
input — network exception, non-success status, write failure — yields absent
rather than a raised fault. -/
theorem C7_fetch_media_from_url (env : MediaEnv) (now : Int) (url : String)
    (session_id : Option String) (st : MediaState) :
    ((urlparse url).scheme = "" ∧ (urlparse url).netloc = "" →
      fetch_media_from_url env now url session_id st = (none, st, false)) ∧
    (∀ md st' nc, fetch_media_from_url env now url session_id st = (some md, st', nc) →
      ∃ resp, env.net url = some resp ∧ resp.ok = true ∧
        md.size = resp.body.length ∧
        md.local_path = cachePath env url resp ∧
        md.media_id = env.uuidGen st.uuidCounter ∧
        st'.registry = st.registry ++ [(md.media_id, md)] ∧
        (md.local_path, resp.body) ∈ st'.files ∧
        md.processed = false ∧ md.original_url = url) ∧
    (env.net url = none → (fetch_media_from_url env now url session_id st).1 = none) ∧
    (∀ resp, env.net url = some resp → resp.ok = false →
      (fetch_media_from_url env now url session_id st).1 = none) ∧
    (∀ resp, env.net url = some resp → env.ioFailWrite (cachePath env url resp) = true →
      (fetch_media_from_url env now url session_id st).1 = none) := by
  refine ⟨fun hboth => ?_, fun md st' nc h => ?_, fun hnone => ?_,
    fun resp hresp hbad => ?_, fun resp hresp hio => ?_⟩
  · unfold fetch_media_from_url
    rw [if_pos (by simp [hboth.1, hboth.2])]
  · unfold fetch_media_from_url at h
    dsimp only at h
    split_ifs at h with hv
    case neg => simp at h
    · rcases hnet : env.net url with _ | resp
      · rw [hnet] at h; simp at h
      · rw [hnet] at h
        dsimp only at h
        split_ifs at h with hok hio
        all_goals simp only [Prod.mk.injEq, Option.some.injEq, reduceCtorEq, false_and] at h
        obtain ⟨h1, h2, h3⟩ := h
        subst h1
        subst h2
        exact ⟨resp, rfl, hok, rfl, rfl, rfl, rfl, by simp, rfl, rfl⟩
  · unfold fetch_media_from_url
    dsimp only
    split_ifs with hv
    · rw [hnone]
    · rfl
  · unfold fetch_media_from_url
    dsimp only
    split_ifs with hv
    · rw [hresp]
      dsimp only
      rw [if_pos (by simp [hbad])]
    · rfl
  · unfold fetch_media_from_url
    dsimp only
    split_ifs with hv
    · rw [hresp]
      dsimp only
      split_ifs with hok
      · rfl
      · rfl
    · rfl

/-- Deleting one key from a registry does not change lookups of other keys. -/
theorem lookup_filter_ne (j k : String) (l : List (String × MediaMetadata)) (h : k ≠ j) :
    (l.filter (fun p => p.1 ≠ j)).lookup k = l.lookup k := by
  induction l with
  | nil => rfl
  | cons a l ih =>
    simp only [decide_not] at ih
    rcases a with ⟨a1, a2⟩
    by_cases ha : a1 = j
    · subst ha
      have hk : (k == a1) = false := beq_eq_false_iff_ne.mpr h
      simp [List.filter_cons, List.lookup, hk, ih]
    · simp only [List.filter_cons, decide_not]
      rw [if_pos (by simpa using ha)]
      by_cases hk : k = a1
      · subst hk
        simp [List.lookup]
      · have hk' : (k == a1) = false := beq_eq_false_iff_ne.mpr hk
        simp [List.lookup, hk', ih]

/-- A key present among a registry's keys has a successful lookup. -/
theorem lookup_isSome_of_mem_keys (k : String) (l : List (String × MediaMetadata))
    (h : k ∈ l.map Prod.fst) : (l.lookup k).isSome := by
  induction l with
  | nil => simp at h
  | cons a l ih =>
    rcases a with ⟨a1, a2⟩
    by_cases hk : k = a1
    · subst hk
      simp [List.lookup]
    · have hk' : (k == a1) = false := beq_eq_false_iff_ne.mpr hk
      simp only [List.map_cons, List.mem_cons] at h
      rcases h with h | h
      · exact absurd h hk
      · simpa [List.lookup, hk'] using ih h

/-- With no `os.remove` failure, the sweep deletes exactly the listed
entries, counts each of them, touches no UUID state, and every surviving
cache file belongs to the original state and matches no deleted item's
path. -/
theorem cleanupSweep_noFail (env : MediaEnv) (hio : ∀ p, env.ioFailRemove p = false) :
    ∀ (ids : List String) (st : MediaState) (count : Nat),
      (∀ id ∈ ids, ((st.registry.lookup id).isSome : Prop)) → ids.Nodup →
      (cleanupSweep env ids st count).1 = count + ids.length ∧
      (cleanupSweep env ids st count).2.registry
        = st.registry.filter (fun p => ¬ ids.contains p.1) ∧
      (cleanupSweep env ids st count).2.uuidCounter = st.uuidCounter ∧
      (∀ f ∈ (cleanupSweep env ids st count).2.files,
        f ∈ st.files ∧ ∀ id ∈ ids, ∀ md, st.registry.lookup id = some md →
          f.1 ≠ md.local_path) := by
  intro ids
  induction ids with
  | nil =>
    intro st count _ _
    refine ⟨rfl, ?_, rfl, fun f hf => ⟨hf, by simp⟩⟩
    simp [cleanupSweep]
  | cons id rest ih =>
    intro st count hsub hnd
    obtain ⟨md, hmd⟩ := Option.isSome_iff_exists.mp (hsub id (by simp))
    have hid_rest : id ∉ rest := (List.nodup_cons.mp hnd).1
    have hnd' : rest.Nodup := (List.nodup_cons.mp hnd).2
    have hstep : cleanupSweep env (id :: rest) st count =
        cleanupSweep env rest
          { st with
            files :=
              if st.files.any (fun f => f.1 = md.local_path) then
                st.files.filter (fun f => f.1 ≠ md.local_path)
              else st.files
            registry := st.registry.filter (fun p => p.1 ≠ id) } (count + 1) := by
      conv_lhs => rw [cleanupSweep.eq_def]
      dsimp only
      rw [hmd]
      dsimp only
      simp only [hio, Bool.false_eq_true, and_false, if_false]
    set st' : MediaState :=
      { st with
        files :=
          if st.files.any (fun f => f.1 = md.local_path) then
            st.files.filter (fun f => f.1 ≠ md.local_path)
          else st.files
        registry := st.registry.filter (fun p => p.1 ≠ id) } with hst'
    have hlk' : ∀ id' ∈ rest, ((st'.registry.lookup id').isSome : Prop) := by
      intro id' hid'
      have hne : id' ≠ id := fun he => hid_rest (he ▸ hid')
      have : st'.registry.lookup id' = st.registry.lookup id' :=
        lookup_filter_ne id id' st.registry hne
      rw [this]
      exact hsub id' (by simp [hid'])
    obtain ⟨ihc, ihr, ihu, ihf⟩ := ih st' (count + 1) hlk' hnd'
    refine ⟨?_, ?_, ?_, ?_⟩
    · rw [hstep, ihc]
      simp [Nat.add_assoc, Nat.add_comm 1]
    · rw [hstep, ihr, hst']
      dsimp only
      rw [List.filter_filter]
      apply List.filter_congr
      intro p _
      by_cases h1 : p.1 = id <;> by_cases h2 : rest.contains p.1 <;>
        simp [h1, h2, List.contains_cons]
    · rw [hstep, ihu, hst']
    · intro f hf
      rw [hstep] at hf
      obtain ⟨hf1, hf2⟩ := ihf f hf
      have hforig : f ∈ st.files ∧ f.1 ≠ md.local_path := by
        rw [hst'] at hf1
        dsimp only at hf1
        by_cases hex : st.files.any (fun g => g.1 = md.local_path)
        · rw [if_pos hex] at hf1
          have := List.of_mem_filter hf1
          exact ⟨List.mem_of_mem_filter hf1, by simpa using this⟩
        · rw [if_neg hex] at hf1
          refine ⟨hf1, ?_⟩
          intro hpe
          rw [List.any_eq_true] at hex
          exact hex ⟨f, hf1, by simp [hpe]⟩
      refine ⟨hforig.1, ?_⟩
      intro id' hid' md' hmd'
      rcases List.mem_cons.mp hid' with he | hr
      · subst he
        rw [hmd'] at hmd
        cases hmd
        exact hforig.2
      · have hne : id' ≠ id := fun he => hid_rest (he ▸ hr)
        exact hf2 id' hr md' (by rw [← hmd', lookup_filter_ne id id' st.registry hne])

/-- With distinct keys, two registry entries sharing a key are equal. -/
theorem eq_of_mem_keys_nodup {l : List (String × MediaMetadata)}
    (hnd : (l.map Prod.fst).Nodup) {p q : String × MediaMetadata}
    (hp : p ∈ l) (hq : q ∈ l) (h : p.1 = q.1) : p = q := by
  induction l with
  | nil => cases hp
  | cons a l ih =>
    simp only [List.map_cons, List.nodup_cons] at hnd
    rcases List.mem_cons.mp hp with rfl | hp' <;> rcases List.mem_cons.mp hq with rfl | hq'
    · rfl
    · exact absurd (h ▸ List.mem_map_of_mem Prod.fst hq') hnd.1
    · exact absurd (h ▸ List.mem_map_of_mem Prod.fst hp') hnd.1
    · exact ih hnd.2 hp' hq'

/-- With distinct keys, looking up a member entry's key returns its value. -/
theorem lookup_eq_of_mem_nodup {l : List (String × MediaMetadata)}
    (hnd : (l.map Prod.fst).Nodup) {p : String × MediaMetadata} (hp : p ∈ l) :
    l.lookup p.1 = some p.2 := by
  induction l with
  | nil => cases hp
  | cons a l ih =>
    simp only [List.map_cons, List.nodup_cons] at hnd
    rcases List.mem_cons.mp hp with rfl | hp'
    · simp [List.lookup]
    · have hne : p.1 ≠ a.1 := by
        intro he
        exact hnd.1 (he ▸ List.mem_map_of_mem Prod.fst hp')
      have hb : (p.1 == a.1) = false := beq_eq_false_iff_ne.mpr hne
      simp [List.lookup, hb, ih hnd.2 hp']

/-- C8: with distinct registry keys and no removal failure,
`cleanup_old_media` deletes the registry entry (and leaves no cache file) of
exactly those items whose age exceeds `max_age_hours`, and returns their
number; with `max_age_hours = 0` every item downloaded strictly in the past
is removed and counted, while a threshold larger than every item's age
removes none; and a per-item `os.remove` failure skips only that item — the
sweep continues on the remaining ids unchanged. -/
theorem C8_cleanup_old_media_exact (env : MediaEnv) (now max_age_hours : Int)
    (st : MediaState)
    (hio : ∀ p, env.ioFailRemove p = false)
    (hnd : (st.registry.map Prod.fst).Nodup) :
    ((cleanup_old_media env now max_age_hours st).1
       = (st.registry.filter (fun p => now - p.2.download_date > max_age_hours * 3600)).length) ∧
    ((cleanup_old_media env now max_age_hours st).2.registry
       = st.registry.filter (fun p => ¬ now - p.2.download_date > max_age_hours * 3600)) ∧
    (∀ f ∈ (cleanup_old_media env now max_age_hours st).2.files,
      f ∈ st.files ∧ ∀ p ∈ st.registry,
        now - p.2.download_date > max_age_hours * 3600 → f.1 ≠ p.2.local_path) ∧
    ((∀ p ∈ st.registry, 0 < now - p.2.download_date) → max_age_hours = 0 →
      (cleanup_old_media env now max_age_hours st).2.registry = [] ∧
      (cleanup_old_media env now max_age_hours st).1 = st.registry.length) ∧
    ((∀ p ∈ st.registry, ¬ now - p.2.download_date > max_age_hours * 3600) →
      cleanup_old_media env now max_age_hours st = (0, st)) ∧
    (∀ (env' : MediaEnv) (id : String) (rest : List String) (st' : MediaState)
       (count : Nat) (md : MediaMetadata),
      st'.registry.lookup id = some md →
      st'.files.any (fun f => f.1 = md.local_path) = true →
      env'.ioFailRemove md.local_path = true →
      cleanupSweep env' (id :: rest) st' count = cleanupSweep env' rest st' count) := by
  have htd_sub : ((st.registry.filter
      (fun p => now - p.2.download_date > max_age_hours * 3600)).map Prod.fst).Sublist
      (st.registry.map Prod.fst) :=
    (List.filter_sublist _).map Prod.fst
  have hsub : ∀ id ∈ (st.registry.filter
      (fun p => now - p.2.download_date > max_age_hours * 3600)).map Prod.fst,
      ((st.registry.lookup id).isSome : Prop) := by
    intro id hid
    exact lookup_isSome_of_mem_keys id st.registry (htd_sub.subset hid)
  have hndtd : ((st.registry.filter
      (fun p => now - p.2.download_date > max_age_hours * 3600)).map Prod.fst).Nodup :=
    hnd.sublist htd_sub
  obtain ⟨hc, hr, hu, hf⟩ := cleanupSweep_noFail env hio
    ((st.registry.filter (fun p => now - p.2.download_date > max_age_hours * 3600)).map Prod.fst)
    st 0 hsub hndtd
  have hcontains : ∀ p ∈ st.registry,
      (((st.registry.filter
          (fun p => now - p.2.download_date > max_age_hours * 3600)).map Prod.fst).contains p.1)
        = decide (now - p.2.download_date > max_age_hours * 3600) := by
    intro p hp
    by_cases hcond : now - p.2.download_date > max_age_hours * 3600
    · rw [decide_eq_true hcond]
      have hmem : p ∈ st.registry.filter
          (fun p => now - p.2.download_date > max_age_hours * 3600) :=
        List.mem_filter.mpr ⟨hp, by simpa using hcond⟩
      exact List.elem_eq_true_of_mem (List.mem_map_of_mem Prod.fst hmem)
    · rw [decide_eq_false hcond]
      rw [Bool.eq_false_iff]
      intro habs
      have hmem : p.1 ∈ (st.registry.filter
          (fun p => now - p.2.download_date > max_age_hours * 3600)).map Prod.fst :=
        List.mem_of_elem_eq_true habs
      obtain ⟨q, hq, hq1⟩ := List.mem_map.mp hmem
      have hqreg := List.mem_of_mem_filter hq
      have hqcond := List.of_mem_filter hq
      have heq : q = p := eq_of_mem_keys_nodup hnd hqreg hp hq1
      subst heq
      exact hcond (by simpa using hqcond)
  have hcnt : (cleanup_old_media env now max_age_hours st).1
      = (st.registry.filter
          (fun p => now - p.2.download_date > max_age_hours * 3600)).length := by
    show (cleanupSweep env _ st 0).1 = _
    rw [hc]
    simp
  have hreg : (cleanup_old_media env now max_age_hours st).2.registry
      = st.registry.filter (fun p => ¬ now - p.2.download_date > max_age_hours * 3600) := by
    show (cleanupSweep env _ st 0).2.registry = _
    rw [hr]
    apply List.filter_congr
    intro p hp
    simp only [hcontains p hp, decide_eq_true_eq]
  refine ⟨hcnt, hreg, ?_, ?_, ?_, ?_⟩
  · intro f hfmem
    obtain ⟨h1, h2⟩ := hf f hfmem
    refine ⟨h1, ?_⟩
    intro p hp hcond
    have hkey : p.1 ∈ (st.registry.filter
        (fun p => now - p.2.download_date > max_age_hours * 3600)).map Prod.fst :=
      List.mem_map_of_mem Prod.fst
        (List.mem_filter.mpr ⟨hp, by simpa using hcond⟩)
    exact h2 p.1 hkey p.2 (lookup_eq_of_mem_nodup hnd hp)
  · intro hall h0
    subst h0
    refine ⟨?_, ?_⟩
    · rw [hreg]
      apply List.filter_eq_nil.mpr
      intro p hp
      simpa using hall p hp
    · rw [hcnt]
      congr 1
      apply List.filter_eq_self.mpr
      intro p hp
      simpa using hall p hp
  · intro hnone
    have hfil : st.registry.filter
        (fun p => now - p.2.download_date > max_age_hours * 3600) = [] := by
      apply List.filter_eq_nil.mpr
      intro p hp
      simpa using hnone p hp
    show cleanupSweep env _ st 0 = (0, st)
    rw [show ((st.registry.filter
        (fun p => now - p.2.download_date > max_age_hours * 3600)).map Prod.fst) = [] by
      rw [hfil]; rfl]
    rfl
  · intro env' id rest st' count md hlk hex hfail
    conv_lhs => rw [cleanupSweep.eq_def]
    dsimp only
    rw [hlk]
    dsimp only
    rw [if_pos ⟨hex, hfail⟩]

/-- Witness for C7: "not-a-url" is rejected without a network attempt, and
the fetch of the known URL yields a record of size 5 at
`media_cache/f00d.pdf`. -/
theorem C7_fetch_media_from_url_witness :
    (((urlparse "not-a-url").scheme = "" ∧ (urlparse "not-a-url").netloc = "" →
      fetch_media_from_url fixEnv 0 "not-a-url" none ⟨[], [], 0⟩ = (none, ⟨[], [], 0⟩, false)) ∧
     (∀ md st' nc, fetch_media_from_url fixEnv 0 "not-a-url" none ⟨[], [], 0⟩ = (some md, st', nc) →
      ∃ resp, fixEnv.net "not-a-url" = some resp ∧ resp.ok = true ∧
        md.size = resp.body.length ∧
        md.local_path = cachePath fixEnv "not-a-url" resp ∧
        md.media_id = fixEnv.uuidGen (0 : Nat) ∧
        st'.registry = ([] : List (String × MediaMetadata)) ++ [(md.media_id, md)] ∧
        (md.local_path, resp.body) ∈ st'.files ∧
        md.processed = false ∧ md.original_url = "not-a-url") ∧
     (fixEnv.net "not-a-url" = none →
      (fetch_media_from_url fixEnv 0 "not-a-url" none ⟨[], [], 0⟩).1 = none) ∧
     (∀ resp, fixEnv.net "not-a-url" = some resp → resp.ok = false →
      (fetch_media_from_url fixEnv 0 "not-a-url" none ⟨[], [], 0⟩).1 = none) ∧
     (∀ resp, fixEnv.net "not-a-url" = some resp →
      fixEnv.ioFailWrite (cachePath fixEnv "not-a-url" resp) = true →
      (fetch_media_from_url fixEnv 0 "not-a-url" none ⟨[], [], 0⟩).1 = none)) ∧
    fetch_media_from_url fixEnv 0 "not-a-url" none ⟨[], [], 0⟩ = (none, ⟨[], [], 0⟩, false) ∧
    (fetch_media_from_url fixEnv 0 "https://e.com/a.pdf" none ⟨[], [], 0⟩).1 =
      some { media_id := "0", original_url := "https://e.com/a.pdf",
             local_path := "media_cache/f00d.pdf", media_type := "document",
             content_type := "application/pdf", size := 5, session_id := none,
             download_date := 0 } :=
  ⟨C7_fetch_media_from_url fixEnv 0 "not-a-url" none ⟨[], [], 0⟩, by decide, by decide⟩

/-- Witness for C8: cleaning `fixSt` (downloaded at 0) at time 10 with
threshold 0 removes the single item and its file and returns 1. -/
theorem C8_cleanup_old_media_exact_witness :
    (∀ p, fixEnv.ioFailRemove p = false) ∧
    ((fixSt.registry.map Prod.fst).Nodup) ∧
    (((cleanup_old_media fixEnv 10 0 fixSt).1
       = (fixSt.registry.filter (fun p => (10 : Int) - p.2.download_date > 0 * 3600)).length) ∧
     ((cleanup_old_media fixEnv 10 0 fixSt).2.registry
       = fixSt.registry.filter (fun p => ¬ (10 : Int) - p.2.download_date > 0 * 3600)) ∧
     (∀ f ∈ (cleanup_old_media fixEnv 10 0 fixSt).2.files,
      f ∈ fixSt.files ∧ ∀ p ∈ fixSt.registry,
        (10 : Int) - p.2.download_date > 0 * 3600 → f.1 ≠ p.2.local_path) ∧
     ((∀ p ∈ fixSt.registry, 0 < (10 : Int) - p.2.download_date) → (0 : Int) = 0 →
      (cleanup_old_media fixEnv 10 0 fixSt).2.registry = [] ∧
      (cleanup_old_media fixEnv 10 0 fixSt).1 = fixSt.registry.length) ∧
     ((∀ p ∈ fixSt.registry, ¬ (10 : Int) - p.2.download_date > 0 * 3600) →
      cleanup_old_media fixEnv 10 0 fixSt = (0, fixSt)) ∧
     (∀ (env' : MediaEnv) (id : String) (rest : List String) (st' : MediaState)
        (count : Nat) (md : MediaMetadata),
      st'.registry.lookup id = some md →
      st'.files.any (fun f => f.1 = md.local_path) = true →
      env'.ioFailRemove md.local_path = true →
      cleanupSweep env' (id :: rest) st' count = cleanupSweep env' rest st' count)) ∧
    cleanup_old_media fixEnv 10 0 fixSt = (1, ⟨[], [], 1⟩) ∧
    cleanup_old_media fixEnv 10 9999 fixSt = (0, fixSt) :=
  ⟨fun _ => rfl, by decide,
   C8_cleanup_old_media_exact fixEnv 10 0 fixSt (fun _ => rfl) (by decide),
   by decide, by decide⟩

/-- Updating the value stored under one key changes exactly that lookup. -/
theorem lookup_map_update (k : String) (g : MediaMetadata → MediaMetadata)
    (l : List (String × MediaMetadata)) :
    (l.map (fun p => if p.1 = k then (p.1, g p.2) else p)).lookup k
      = (l.lookup k).map g := by
  induction l with
  | nil => rfl
  | cons a l ih =>
    rcases a with ⟨a1, a2⟩
    by_cases h : a1 = k
    · subst h
      simp only [List.map_cons]
      rw [if_pos trivial]
      simp [List.lookup]
    · simp only [List.map_cons]
      rw [if_neg h]
      have hb : (k == a1) = false := beq_eq_false_iff_ne.mpr (Ne.symm h)
      simp [List.lookup, hb, ih]

/-- C9: a first `extract_media_content` call on an unprocessed known record
stores the dispatch result — marker strings included — as
`processed_content` and sets `processed`, leaving the cache untouched; any
later call with the same id returns the stored text behind the
already-processed prefix, with the same state and independently of the
extraction engines then available. -/
theorem C9_extract_media_content_sticky (env env2 : ExtractEnv) (media_id : String)
    (max_pages max_pages2 : Nat) (st : MediaState) (md : MediaMetadata)
    (hlk : st.registry.lookup media_id = some md)
    (hnp : ¬ (md.processed = true ∧ md.processed_content.isSome = true)) :
    (extract_media_content env media_id max_pages st).1
      = extractDispatch env md max_pages ∧
    ((extract_media_content env media_id max_pages st).2).registry.lookup media_id
      = some { md with processed := true, processed_content := some (extractDispatch env md max_pages) } ∧
    ((extract_media_content env media_id max_pages st).2).files = st.files ∧
    extract_media_content env2 media_id max_pages2
        ((extract_media_content env media_id max_pages st).2)
      = ("[Contenu déjà traité pour " ++ media_id ++ "]\n"
           ++ extractDispatch env md max_pages,
         (extract_media_content env media_id max_pages st).2) := by
  have hfst : extract_media_content env media_id max_pages st
      = (extractDispatch env md max_pages,
         { st with registry := st.registry.map (fun p =>
             if p.1 = media_id then
               (p.1, { p.2 with processed := true, processed_content := some (extractDispatch env md max_pages) })
             else p) }) := by
    unfold extract_media_content get_media_metadata
    rw [hlk]
    dsimp only
    rw [if_neg hnp]
  have hlk2 : ((extract_media_content env media_id max_pages st).2).registry.lookup media_id
      = some { md with processed := true, processed_content := some (extractDispatch env md max_pages) } := by
    rw [hfst]
    dsimp only
    have hmu := lookup_map_update media_id
      (fun m => { m with processed := true, processed_content := some (extractDispatch env md max_pages) })
      st.registry
    rw [hlk] at hmu
    rw [hmu]
    rfl
  refine ⟨by rw [hfst], hlk2, by rw [hfst], ?_⟩
  set st2 := (extract_media_content env media_id max_pages st).2 with hst2
  unfold extract_media_content get_media_metadata
  rw [hlk2]
  dsimp only
  rw [if_pos ⟨rfl, rfl⟩]
  rfl

/-- Witness for C9 on the concrete PDF record: the first call stores the PDF
extraction output, the second returns it behind the already-processed prefix
even though the second environment has no engines at all. -/
theorem C9_extract_media_content_sticky_witness :
    (fixSt.registry.lookup "m1" = some fixMd ∧
      ¬ (fixMd.processed = true ∧ fixMd.processed_content.isSome = true)) ∧
    ((extract_media_content fixXEnv "m1" 10 fixSt).1
      = extractDispatch fixXEnv fixMd 10 ∧
    ((extract_media_content fixXEnv "m1" 10 fixSt).2).registry.lookup "m1"
      = some { fixMd with processed := true, processed_content := some (extractDispatch fixXEnv fixMd 10) } ∧
    ((extract_media_content fixXEnv "m1" 10 fixSt).2).files = fixSt.files ∧
    extract_media_content ⟨fun _ => "OCR", fun _ _ => "PDF2", fun _ => some "T",
        fun _ => "AU", fun _ => some "vid.mp3"⟩ "m1" 3
        ((extract_media_content fixXEnv "m1" 10 fixSt).2)
      = ("[Contenu déjà traité pour " ++ "m1" ++ "]\n"
           ++ extractDispatch fixXEnv fixMd 10,
         (extract_media_content fixXEnv "m1" 10 fixSt).2)) ∧
    (extract_media_content fixXEnv "m1" 10 fixSt).1 = "[Texte extrait du PDF]\n\nPDFTEXT" :=
  ⟨⟨by decide, by decide⟩,
   C9_extract_media_content_sticky fixXEnv
     ⟨fun _ => "OCR", fun _ _ => "PDF2", fun _ => some "T", fun _ => "AU", fun _ => some "vid.mp3"⟩
     "m1" 10 3 fixSt fixMd (by decide) (by decide),
   by decide⟩

/-- C10: two successful fetches of the same URL register two entries with
distinct fresh media ids but the identical cache path (MD5 of the URL plus
the inferred extension), so the second download overwrites the first entry's
file, both records alias one file, and removing the file through one entry's
path leaves none at the other entry's path. -/
theorem C10_fetch_same_url_alias (env : MediaEnv) (now1 now2 : Int) (url : String)
    (sid1 sid2 : Option String) (st : MediaState) (resp : HttpResponse)
    (hs : (urlparse url).scheme ≠ "") (hn : (urlparse url).netloc ≠ "")
    (hnet : env.net url = some resp) (hok : resp.ok = true)
    (hiow : env.ioFailWrite (cachePath env url resp) = false)
    (huuid : env.uuidGen st.uuidCounter ≠ env.uuidGen (st.uuidCounter + 1)) :
    ∃ md1 md2 st1 st2,
      fetch_media_from_url env now1 url sid1 st = (some md1, st1, true) ∧
      fetch_media_from_url env now2 url sid2 st1 = (some md2, st2, true) ∧
      md1.media_id ≠ md2.media_id ∧
      md1.local_path = md2.local_path ∧
      md1.local_path = cachePath env url resp ∧
      st2.registry = st.registry ++ [(md1.media_id, md1)] ++ [(md2.media_id, md2)] ∧
      (∀ f ∈ st2.files.filter (fun f => f.1 ≠ md1.local_path), f.1 ≠ md2.local_path) := by
  have hstep : ∀ (nowk : Int) (sidk : Option String) (stk : MediaState),
      fetch_media_from_url env nowk url sidk stk =
        (some { media_id := env.uuidGen stk.uuidCounter
                original_url := url
                local_path := cachePath env url resp
                media_type := url_to_media_type url (some (respContentType resp))
                content_type := respContentType resp
                size := resp.body.length
                session_id := sidk
                download_date := nowk },
         { registry := stk.registry ++
             [(env.uuidGen stk.uuidCounter,
               { media_id := env.uuidGen stk.uuidCounter
                 original_url := url
                 local_path := cachePath env url resp
                 media_type := url_to_media_type url (some (respContentType resp))
                 content_type := respContentType resp
                 size := resp.body.length
                 session_id := sidk
                 download_date := nowk })]
           files := stk.files.filter (fun f => f.1 ≠ cachePath env url resp)
             ++ [(cachePath env url resp, resp.body)]
           uuidCounter := stk.uuidCounter + 1 },
         true) := by
    intro nowk sidk stk
    unfold fetch_media_from_url
    rw [if_neg (by simp [hs, hn])]
    dsimp only
    rw [hnet]
    dsimp only
    rw [if_neg (by simp [hok]), if_neg (by simp [hiow])]
  refine ⟨_, _, _, _, hstep now1 sid1 st, hstep now2 sid2 _, ?_, rfl, rfl, rfl, ?_⟩
  · simpa using huuid
  · intro f hf
    have := List.of_mem_filter hf
    simpa using this

/-- Witness for C10: fetching the fixture URL twice from an empty state
yields ids "0" and "1" sharing the cache path `media_cache/f00d.pdf`. -/
theorem C10_fetch_same_url_alias_witness :
    ((urlparse "https://e.com/a.pdf").scheme ≠ "" ∧
     (urlparse "https://e.com/a.pdf").netloc ≠ "" ∧
     fixEnv.net "https://e.com/a.pdf" = some ⟨true, "application/pdf", "BODY!"⟩ ∧
     (⟨true, "application/pdf", "BODY!"⟩ : HttpResponse).ok = true ∧
     fixEnv.ioFailWrite
       (cachePath fixEnv "https://e.com/a.pdf" ⟨true, "application/pdf", "BODY!"⟩) = false ∧
     fixEnv.uuidGen (0 : Nat) ≠ fixEnv.uuidGen (0 + 1)) ∧
    (∃ md1 md2 st1 st2,
      fetch_media_from_url fixEnv 0 "https://e.com/a.pdf" none ⟨[], [], 0⟩ = (some md1, st1, true) ∧
      fetch_media_from_url fixEnv 0 "https://e.com/a.pdf" none st1 = (some md2, st2, true) ∧
      md1.media_id ≠ md2.media_id ∧
      md1.local_path = md2.local_path ∧
      md1.local_path = cachePath fixEnv "https://e.com/a.pdf" ⟨true, "application/pdf", "BODY!"⟩ ∧
      st2.registry = ([] : List (String × MediaMetadata))
        ++ [(md1.media_id, md1)] ++ [(md2.media_id, md2)] ∧
      (∀ f ∈ st2.files.filter (fun f => f.1 ≠ md1.local_path), f.1 ≠ md2.local_path)) :=
  ⟨⟨by decide, by decide, rfl, rfl, rfl, by decide⟩,
   C10_fetch_same_url_alias fixEnv 0 0 "https://e.com/a.pdf" none none ⟨[], [], 0⟩
     ⟨true, "application/pdf", "BODY!"⟩ (by decide) (by decide) rfl rfl rfl (by decide)⟩

/-- Every invoke input recorded by the retry loop carries the loop's fixed
chat history. -/
theorem retryLoop_trace_hist (env : AgentEnv) (jl : JsonLoads) (message : String)
    (hist : List (String × String)) :
    ∀ (n callIdx : Nat) (scratch : String) (trace : List InvokeInputs)
      (mem : Memory) (res : Option InvokeResult),
      (∀ i ∈ trace, i.chatHistory = hist) →
      ∀ i ∈ (retryLoop env jl message hist n callIdx scratch trace mem res).2.2.1,
        i.chatHistory = hist := by
  intro n
  induction n with
  | zero => intro callIdx scratch trace mem res htr i hi; exact htr i hi
  | succ n ih =>
    intro callIdx scratch trace mem res htr i hi
    rw [retryLoop] at hi
    have hext : ∀ (j : InvokeInputs),
        j ∈ trace ++ [(⟨message, hist, scratch⟩ : InvokeInputs)] →
        j.chatHistory = hist := by
      intro j hj
      rcases List.mem_append.mp hj with h | h
      · exact htr j h
      · rw [List.mem_singleton.mp h]
    split_ifs at hi
    all_goals
      first
      | exact htr i hi
      | exact hext i (by dsimp only at hi; exact hi)
      | (refine ih _ _ _ _ _ ?_ i hi
         intro j hj
         exact hext j hj)

/-- Every invoke input recorded by the continuation loop carries the loop's
fixed chat history. -/
theorem continuationLoop_trace_hist (env : AgentEnv) (hist : List (String × String)) :
    ∀ (n : Nat) (st : ContState),
      (∀ i ∈ st.trace, i.chatHistory = hist) →
      ∀ i ∈ (continuationLoop env hist n st).trace, i.chatHistory = hist := by
  intro n
  induction n with
  | zero => intro st htr i hi; exact htr i hi
  | succ n ih =>
    intro st htr i hi
    rw [continuationLoop] at hi
    have hext : ∀ (j : InvokeInputs),
        j ∈ st.trace ++ [(⟨continuationMessage st.currentOutput, hist, st.scratch⟩ : InvokeInputs)] →
        j.chatHistory = hist := by
      intro j hj
      rcases List.mem_append.mp hj with h | h
      · exact htr j h
      · rw [List.mem_singleton.mp h]
    split_ifs at hi with hlen
    · dsimp only at hi
      split_ifs at hi
      all_goals
        first
        | exact hext i (by dsimp only at hi; exact hi)
        | (refine ih _ ?_ i hi
           intro j hj
           dsimp only at hj
           exact hext j hj)
    · exact htr i hi

/-- Every invoke of a `process_message` call sees the empty chat history
loaded right after the initial `memory.clear()`. -/
theorem process_message_trace_hist (env : AgentEnv) (jl : JsonLoads) (mem0 : Memory)
    (message : String) :
    ∀ i ∈ (process_message env jl mem0 message).trace, i.chatHistory = [] := by
  intro i hi
  unfold process_message at hi
  dsimp only at hi
  have htrace := retryLoop_trace_hist env jl message [] 3 0 "" [] [] none
    (by intro j hj; cases hj)
  rcases hR : retryLoop env jl message [] 3 0 "" [] [] none with ⟨res, scratch, trace, callIdx, mem⟩
  rw [hR] at hi htrace
  dsimp only at htrace
  cases res with
  | none =>
    dsimp only at hi
    exact htrace i hi
  | some result =>
    dsimp only at hi
    set stc := continuationLoop env [] 2
      { currentOutput := result.output, result := result, scratch := scratch,
        lastSteps := result.intermediateSteps, finishReason := result.finishReason,
        callIdx := callIdx, trace := trace, mem := mem } with hstc
    have hct : ∀ j ∈ stc.trace, j.chatHistory = [] :=
      continuationLoop_trace_hist env [] 2 _ htrace
    cases hval : iterLimitHeuristic (postExtract jl stc.currentOutput) stc.lastSteps <;>
      rw [hval] at hi <;> exact hct i hi

/-- C4: the conversation memory is cleared unconditionally before anything
else in `process_message`, so the call's entire observable behaviour —
response, resulting memory, invocation trace, call count, recorded steps —
is independent of whatever the memory held when the call began (no content
survives into a later call), and every LLM invocation of the call sees an
empty chat history. -/
theorem C4_process_message_memory_independent (env : AgentEnv) (jl : JsonLoads)
    (mem0 mem0' : Memory) (message : String) :
    process_message env jl mem0 message = process_message env jl mem0' message ∧
    ∀ i ∈ (process_message env jl mem0 message).trace, i.chatHistory = [] :=
  ⟨rfl, process_message_trace_hist env jl mem0 message⟩

/-- Unfolding equation of the retry loop at fuel 0. -/
theorem retryLoop_zero (env : AgentEnv) (jl : JsonLoads) (message : String)
    (hist : List (String × String)) (callIdx : Nat) (scratch : String)
    (trace : List InvokeInputs) (mem : Memory) (res : Option InvokeResult) :
    retryLoop env jl message hist 0 callIdx scratch trace mem res
      = (res, scratch, trace, callIdx, mem) := rfl

/-- Unfolding equation of the retry loop at positive fuel: one invoke, the
scratchpad extended by the attempt's formatted steps, early exit exactly on
a recognised final answer. -/
theorem retryLoop_succ (env : AgentEnv) (jl : JsonLoads) (message : String)
    (hist : List (String × String)) (n callIdx : Nat) (scratch : String)
    (trace : List InvokeInputs) (mem : Memory) (res : Option InvokeResult) :
    retryLoop env jl message hist (n + 1) callIdx scratch trace mem res
      = (if isFinalAnswer jl (env callIdx ⟨message, hist, scratch⟩).output then
          (some (env callIdx ⟨message, hist, scratch⟩),
           (if (env callIdx ⟨message, hist, scratch⟩).intermediateSteps.isEmpty then scratch
            else scratch ++ format_scratchpad_for_llm
              (env callIdx ⟨message, hist, scratch⟩).intermediateSteps),
           trace ++ [⟨message, hist, scratch⟩], callIdx + 1,
           mem ++ [("human", message),
             ("ai", pyvalStr (env callIdx ⟨message, hist, scratch⟩).output)])
        else
          retryLoop env jl message hist n (callIdx + 1)
            (if (env callIdx ⟨message, hist, scratch⟩).intermediateSteps.isEmpty then scratch
             else scratch ++ format_scratchpad_for_llm
               (env callIdx ⟨message, hist, scratch⟩).intermediateSteps)
            (trace ++ [⟨message, hist, scratch⟩])
            (mem ++ [("human", message),
              ("ai", pyvalStr (env callIdx ⟨message, hist, scratch⟩).output)])
            (some (env callIdx ⟨message, hist, scratch⟩))) := rfl

/-- Unfolding equation of the accumulated scratchpad. -/
theorem scratchAt_succ (env : AgentEnv) (message : String)
    (hist : List (String × String)) (k : Nat) :
    scratchAt env message hist (k + 1)
      = (if (env k ⟨message, hist, scratchAt env message hist k⟩).intermediateSteps.isEmpty
         then scratchAt env message hist k
         else scratchAt env message hist k ++ format_scratchpad_for_llm
           (env k ⟨message, hist, scratchAt env message hist k⟩).intermediateSteps) := rfl

/-- The scratchpad is carried forward between attempts: each attempt only
appends to it (possibly the empty segment), never resets it. -/
theorem scratchAt_carry (env : AgentEnv) (message : String)
    (hist : List (String × String)) (k : Nat) :
    ∃ seg, scratchAt env message hist (k + 1) = scratchAt env message hist k ++ seg := by
  by_cases he : (env k ⟨message, hist, scratchAt env message hist k⟩).intermediateSteps.isEmpty = true
  · exact ⟨"", by rw [scratchAt_succ, if_pos he, String.append_empty]⟩
  · exact ⟨format_scratchpad_for_llm
      (env k ⟨message, hist, scratchAt env message hist k⟩).intermediateSteps,
      by rw [scratchAt_succ, if_neg he]⟩

/-- The iteration-limit recovery is the identity when the run recorded no
intermediate steps. -/
theorem iterLimitHeuristic_nil (v : PyValue) : iterLimitHeuristic v [] = v := by
  unfold iterLimitHeuristic
  split_ifs <;> first | rfl | simp_all

/-- C5: within one `process_message` call the reasoning loop runs between 1
and 3 attempts; the recorded invoke inputs are exactly the attempts
`0, …, n-1`, each seeing the accumulated scratchpad of the previous attempts
(carried forward, never reset: each step only appends a segment); no attempt
before the stopping one is recognised as a final answer, the stopping
attempt (when the loop exits early) is recognised — recognition being
`isFinalAnswer`: a JSON object literal whose `action` field is
`"Final Answer"`, or the literal substring `"Final Answer"` in non-JSON
text; the loop's result is the last attempt's result, recognised or not,
and its scratchpad is the full accumulation.  Moreover an LLM that emits a
final-answer object with `action_input = x` on its first call yields exactly
one attempt (one invoke, trace `[⟨message, [], ""⟩]`) and the returned text
is exactly `x`. -/
theorem C5_retry_loop_final_answer (env : AgentEnv) (jl : JsonLoads)
    (message : String) (mem : Memory) (x : String)
    (hscen : env 0 ⟨message, [], ""⟩ =
      ⟨PyValue.dict [("action", PyValue.str "Final Answer"), ("action_input", PyValue.str x)],
       [], some "stop"⟩) :
    (∀ (env' : AgentEnv) (jl' : JsonLoads) (message' : String)
       (hist' : List (String × String)) (mem' : Memory),
      1 ≤ attemptsTaken env' jl' message' hist' ∧
      attemptsTaken env' jl' message' hist' ≤ 3 ∧
      (retryLoop env' jl' message' hist' 3 0 "" [] mem' none).2.2.1
        = (List.range (attemptsTaken env' jl' message' hist')).map
            (fun k => ⟨message', hist', scratchAt env' message' hist' k⟩) ∧
      (∀ k, k + 1 < attemptsTaken env' jl' message' hist' →
        recognizedAt env' jl' message' hist' k = false) ∧
      (attemptsTaken env' jl' message' hist' < 3 →
        recognizedAt env' jl' message' hist'
          (attemptsTaken env' jl' message' hist' - 1) = true) ∧
      (retryLoop env' jl' message' hist' 3 0 "" [] mem' none).1
        = some (env' (attemptsTaken env' jl' message' hist' - 1)
            ⟨message', hist', scratchAt env' message' hist'
              (attemptsTaken env' jl' message' hist' - 1)⟩) ∧
      (retryLoop env' jl' message' hist' 3 0 "" [] mem' none).2.1
        = scratchAt env' message' hist' (attemptsTaken env' jl' message' hist') ∧
      (∀ k : Nat, ∃ seg, scratchAt env' message' hist' (k + 1)
        = scratchAt env' message' hist' k ++ seg)) ∧
    ((process_message env jl mem message).response = x ∧
     (process_message env jl mem message).trace = [⟨message, [], ""⟩] ∧
     (process_message env jl mem message).callCount = 1) := by
  constructor
  · intro env' jl' message' hist' mem'
    by_cases r0 : recognizedAt env' jl' message' hist' 0 = true
    · -- recognised on the first attempt
      have hat : attemptsTaken env' jl' message' hist' = 1 := by
        unfold attemptsTaken; rw [if_pos r0]
      have r0x : isFinalAnswer jl' (env' 0 ⟨message', hist', ""⟩).output = true := r0
      have hL : retryLoop env' jl' message' hist' 3 0 "" [] mem' none
          = (some (env' 0 ⟨message', hist', scratchAt env' message' hist' 0⟩),
             scratchAt env' message' hist' 1,
             [⟨message', hist', scratchAt env' message' hist' 0⟩], 1,
             mem' ++ [("human", message'),
               ("ai", pyvalStr (env' 0 ⟨message', hist', scratchAt env' message' hist' 0⟩).output)]) := by
        rw [retryLoop_succ, if_pos r0x]
        try rfl
      refine ⟨?_, ?_, ?_, ?_, ?_, ?_, ?_, fun k => scratchAt_carry env' message' hist' k⟩
      · rw [hat] <;> omega
      · rw [hat] <;> omega
      · rw [hL, hat] <;> rfl
      · intro k hk
        rw [hat] at hk
        exact absurd hk (by omega)
      · intro _
        rw [hat]
        exact r0
      · rw [hL, hat] <;> rfl
      · rw [hL, hat] <;> rfl
    · by_cases r1 : recognizedAt env' jl' message' hist' 1 = true
      · -- recognised on the second attempt
        have hat : attemptsTaken env' jl' message' hist' = 2 := by
          unfold attemptsTaken; rw [if_neg r0, if_pos r1]
        have r0x : ¬ (isFinalAnswer jl' (env' 0 ⟨message', hist', ""⟩).output = true) := r0
        have r1x : isFinalAnswer jl' (env' 1
            ⟨message', hist', scratchAt env' message' hist' 1⟩).output = true := r1
        have hs1 : (if (env' 0 ⟨message', hist', ""⟩).intermediateSteps.isEmpty then ""
            else "" ++ format_scratchpad_for_llm (env' 0 ⟨message', hist', ""⟩).intermediateSteps)
            = scratchAt env' message' hist' 1 := rfl
        have hL : retryLoop env' jl' message' hist' 3 0 "" [] mem' none
            = (some (env' 1 ⟨message', hist', scratchAt env' message' hist' 1⟩),
               scratchAt env' message' hist' 2,
               [⟨message', hist', scratchAt env' message' hist' 0⟩,
                ⟨message', hist', scratchAt env' message' hist' 1⟩],
               2,
               (mem' ++ [("human", message'),
                  ("ai", pyvalStr (env' 0 ⟨message', hist', scratchAt env' message' hist' 0⟩).output)])
                 ++ [("human", message'),
                  ("ai", pyvalStr (env' 1 ⟨message', hist', scratchAt env' message' hist' 1⟩).output)]) := by
          rw [retryLoop_succ, if_neg r0x, hs1, retryLoop_succ, if_pos r1x]
          try rfl
        refine ⟨?_, ?_, ?_, ?_, ?_, ?_, ?_, fun k => scratchAt_carry env' message' hist' k⟩
        · rw [hat] <;> omega
        · rw [hat] <;> omega
        · rw [hL, hat] <;> rfl
        · intro k hk
          rw [hat] at hk
          have hk0 : k = 0 := by omega
          subst hk0
          cases hb : recognizedAt env' jl' message' hist' 0
          · rfl
          · exact absurd hb r0
        · intro _
          rw [hat]
          exact r1
        · rw [hL, hat] <;> rfl
        · rw [hL, hat] <;> rfl
      · -- never recognised before the last attempt: all three attempts run
        have hat : attemptsTaken env' jl' message' hist' = 3 := by
          unfold attemptsTaken; rw [if_neg r0, if_neg r1]
        have r0x : ¬ (isFinalAnswer jl' (env' 0 ⟨message', hist', ""⟩).output = true) := r0
        have r1x : ¬ (isFinalAnswer jl' (env' 1
            ⟨message', hist', scratchAt env' message' hist' 1⟩).output = true) := r1
        have hs1 : (if (env' 0 ⟨message', hist', ""⟩).intermediateSteps.isEmpty then ""
            else "" ++ format_scratchpad_for_llm (env' 0 ⟨message', hist', ""⟩).intermediateSteps)
            = scratchAt env' message' hist' 1 := rfl
        have hs2 : (if (env' 1 ⟨message', hist', scratchAt env' message' hist' 1⟩).intermediateSteps.isEmpty
              then scratchAt env' message' hist' 1
              else scratchAt env' message' hist' 1 ++ format_scratchpad_for_llm
                (env' 1 ⟨message', hist', scratchAt env' message' hist' 1⟩).intermediateSteps)
            = scratchAt env' message' hist' 2 := rfl
        have hL : retryLoop env' jl' message' hist' 3 0 "" [] mem' none
            = (some (env' 2 ⟨message', hist', scratchAt env' message' hist' 2⟩),
               scratchAt env' message' hist' 3,
               [⟨message', hist', scratchAt env' message' hist' 0⟩,
                ⟨message', hist', scratchAt env' message' hist' 1⟩,
                ⟨message', hist', scratchAt env' message' hist' 2⟩],
               3,
               ((mem' ++ [("human", message'),
                   ("ai", pyvalStr (env' 0 ⟨message', hist', scratchAt env' message' hist' 0⟩).output)])
                 ++ [("human", message'),
                   ("ai", pyvalStr (env' 1 ⟨message', hist', scratchAt env' message' hist' 1⟩).output)])
                 ++ [("human", message'),
                   ("ai", pyvalStr (env' 2 ⟨message', hist', scratchAt env' message' hist' 2⟩).output)]) := by
          rw [retryLoop_succ, if_neg r0x, hs1, retryLoop_succ, if_neg r1x, hs2, retryLoop_succ]
          by_cases r2 : isFinalAnswer jl' (env' 2
              ⟨message', hist', scratchAt env' message' hist' 2⟩).output = true
          · rw [if_pos r2]
            try rfl
          · rw [if_neg r2, retryLoop_zero]
            try rfl
        refine ⟨?_, ?_, ?_, ?_, ?_, ?_, ?_, fun k => scratchAt_carry env' message' hist' k⟩
        · rw [hat] <;> omega
        · rw [hat] <;> omega
        · rw [hL, hat] <;> rfl
        · intro k hk
          rw [hat] at hk
          have hk01 : k = 0 ∨ k = 1 := by omega
          rcases hk01 with hk0 | hk1
          · subst hk0
            cases hb : recognizedAt env' jl' message' hist' 0
            · rfl
            · exact absurd hb r0
          · subst hk1
            cases hb : recognizedAt env' jl' message' hist' 1
            · rfl
            · exact absurd hb r1
        · intro h3
          rw [hat] at h3
          exact absurd h3 (by omega)
        · rw [hL, hat] <;> rfl
        · rw [hL, hat] <;> rfl
  · -- scenario: a first-call final-answer object with action_input = x
    have rscen : recognizedAt env jl message [] 0 = true := by
      unfold recognizedAt
      rw [show scratchAt env message [] 0 = "" from rfl, hscen]
      rfl
    have r0x : isFinalAnswer jl (env 0 ⟨message, [], ""⟩).output = true := rscen
    have hL1 : retryLoop env jl message [] 3 0 "" [] [] none
        = (some ⟨PyValue.dict [("action", PyValue.str "Final Answer"),
                   ("action_input", PyValue.str x)], [], some "stop"⟩,
           "", [⟨message, [], ""⟩], 1,
           [("human", message),
            ("ai", pyvalStr (PyValue.dict [("action", PyValue.str "Final Answer"),
              ("action_input", PyValue.str x)]))]) := by
      rw [retryLoop_succ, if_pos r0x, hscen]
      try rfl
    have hpost : postExtract jl (PyValue.dict [("action", PyValue.str "Final Answer"),
        ("action_input", PyValue.str x)]) = PyValue.str x := rfl
    unfold process_message
    dsimp only
    rw [hL1]
    dsimp only
    rw [show continuationLoop env ([] : Memory) 2
        { currentOutput := PyValue.dict [("action", PyValue.str "Final Answer"),
            ("action_input", PyValue.str x)]
          result := ⟨PyValue.dict [("action", PyValue.str "Final Answer"),
            ("action_input", PyValue.str x)], [], some "stop"⟩
          scratch := ""
          lastSteps := []
          finishReason := some "stop"
          callIdx := 1
          trace := [⟨message, [], ""⟩]
          mem := [("human", message),
            ("ai", pyvalStr (PyValue.dict [("action", PyValue.str "Final Answer"),
              ("action_input", PyValue.str x)]))] }
      = { currentOutput := PyValue.dict [("action", PyValue.str "Final Answer"),
            ("action_input", PyValue.str x)]
          result := ⟨PyValue.dict [("action", PyValue.str "Final Answer"),
            ("action_input", PyValue.str x)], [], some "stop"⟩
          scratch := ""
          lastSteps := []
          finishReason := some "stop"
          callIdx := 1
          trace := [⟨message, [], ""⟩]
          mem := [("human", message),
            ("ai", pyvalStr (PyValue.dict [("action", PyValue.str "Final Answer"),
              ("action_input", PyValue.str x)]))] }
      from by rw [continuationLoop]; rw [if_neg (by simp)]]
    dsimp only
    rw [hpost, iterLimitHeuristic_nil]
    exact ⟨rfl, rfl, rfl⟩

/-- C5 witness: with the concrete oracle `fixAEnv` (final-answer object with
`action_input = "X"` on every call), `process_message` returns exactly `"X"`
after exactly one retry-loop attempt. -/
theorem C5_retry_loop_final_answer_witness :
    fixAEnv 0 ⟨"Bonjour", [], ""⟩
      = ⟨PyValue.dict [("action", PyValue.str "Final Answer"),
          ("action_input", PyValue.str "X")], [], some "stop"⟩ ∧
    (process_message fixAEnv fixJl [("human", "ancien")] "Bonjour").response = "X" ∧
    (process_message fixAEnv fixJl [("human", "ancien")] "Bonjour").trace
      = [⟨"Bonjour", [], ""⟩] ∧
    (process_message fixAEnv fixJl [("human", "ancien")] "Bonjour").callCount = 1 ∧
    attemptsTaken fixAEnv fixJl "Bonjour" [] = 1 :=
  ⟨rfl,
   (C5_retry_loop_final_answer fixAEnv fixJl "Bonjour" [("human", "ancien")] "X" rfl).2.1,
   (C5_retry_loop_final_answer fixAEnv fixJl "Bonjour" [("human", "ancien")] "X" rfl).2.2.1,
   (C5_retry_loop_final_answer fixAEnv fixJl "Bonjour" [("human", "ancien")] "X" rfl).2.2.2,
   rfl⟩
